import Mathlib

/-!
Big Time Plus: slot pool and time renderer.

A shallow embedding of `src/big_time_plus/big_time_plus.c`.

The C program keeps its state in globals (`image_slot_state`,
`image_containers`, `window`); here they are the fields of `State`, which
every function takes and returns.  The Pebble SDK calls the program makes
(`bmp_init_container`, `bmp_deinit_container`, `layer_add_child`, ...) are
modelled by their effect on the fields of the container they are given.

An array access outside the bounds of a global array is undefined in C; the
functions that index without a guard return `Option State`, with `none` for
such an access.
-/

namespace BigTimePlus

/-! ## Constants and SDK types -/

/-- Source: `#define TOTAL_IMAGE_SLOTS 4`. -/
abbrev TOTAL_IMAGE_SLOTS : Nat := 4

/-- Source: `#define NUMBER_OF_IMAGES 10`. -/
abbrev NUMBER_OF_IMAGES : Nat := 10

/-- Source: `#define EMPTY_SLOT -1`. -/
def EMPTY_SLOT : Int := -1

/-- Resource identifiers of `resource_ids.auto.h` that the source names.
The header is generated and its numbers are not needed: the identifiers are
kept symbolic. -/
inductive ResourceId where
  | RESOURCE_ID_IMAGE_MENU_ICON
  | RESOURCE_ID_IMAGE_NUM_0
  | RESOURCE_ID_IMAGE_NUM_1
  | RESOURCE_ID_IMAGE_NUM_2
  | RESOURCE_ID_IMAGE_NUM_3
  | RESOURCE_ID_IMAGE_NUM_4
  | RESOURCE_ID_IMAGE_NUM_5
  | RESOURCE_ID_IMAGE_NUM_6
  | RESOURCE_ID_IMAGE_NUM_7
  | RESOURCE_ID_IMAGE_NUM_8
  | RESOURCE_ID_IMAGE_NUM_9
  deriving DecidableEq, Repr

/-- Source: the table `IMAGE_RESOURCE_IDS[NUMBER_OF_IMAGES]`, digit to
resource identifier. -/
def IMAGE_RESOURCE_IDS : Fin NUMBER_OF_IMAGES → ResourceId
  | ⟨0, _⟩ => ResourceId.RESOURCE_ID_IMAGE_NUM_0
  | ⟨1, _⟩ => ResourceId.RESOURCE_ID_IMAGE_NUM_1
  | ⟨2, _⟩ => ResourceId.RESOURCE_ID_IMAGE_NUM_2
  | ⟨3, _⟩ => ResourceId.RESOURCE_ID_IMAGE_NUM_3
  | ⟨4, _⟩ => ResourceId.RESOURCE_ID_IMAGE_NUM_4
  | ⟨5, _⟩ => ResourceId.RESOURCE_ID_IMAGE_NUM_5
  | ⟨6, _⟩ => ResourceId.RESOURCE_ID_IMAGE_NUM_6
  | ⟨7, _⟩ => ResourceId.RESOURCE_ID_IMAGE_NUM_7
  | ⟨8, _⟩ => ResourceId.RESOURCE_ID_IMAGE_NUM_8
  | ⟨_, _⟩ => ResourceId.RESOURCE_ID_IMAGE_NUM_9

/-- The two compositing modes of the SDK that the source uses. -/
inductive GCompOp where
  | GCompOpAssign
  | GCompOpAssignInverted
  deriving DecidableEq, Repr

/-- The two window background colours that the source uses. -/
inductive GColor where
  | GColorBlack
  | GColorWhite
  deriving DecidableEq, Repr

/-- The fields of an SDK `BmpContainer` that the source reads or writes,
directly or through an SDK call:
* `bmp`: the image resource held (`bmp_init_container` loads it,
  `bmp_deinit_container` releases it);
* `compositing_mode`: set by `bitmap_layer_set_compositing_mode`;
* `origin_x`, `origin_y`: `layer.layer.frame.origin`;
* `has_parent`: whether the layer is a child of the window's root layer
  (`layer_add_child`, `layer_remove_from_parent`). -/
structure BmpContainer where
  bmp : Option ResourceId
  compositing_mode : GCompOp
  origin_x : Int
  origin_y : Int
  has_parent : Bool
  deriving DecidableEq, Repr

/-- The global state of the program.
* `image_slot_state`, `image_containers`: the two global arrays of
  `TOTAL_IMAGE_SLOTS` entries;
* `background_color`: the background of the global `window`;
* `acquired`: the resources loaded by `bmp_init_container` so far, latest
  first;
* `released`: how many times `bmp_deinit_container` has run. -/
structure State where
  image_slot_state : Fin TOTAL_IMAGE_SLOTS → Int
  image_containers : Fin TOTAL_IMAGE_SLOTS → BmpContainer
  background_color : GColor
  acquired : List ResourceId
  released : Nat

/-- The part of the SDK `PblTm` that the source reads. -/
structure PblTm where
  tm_hour : Int
  tm_min : Int

/-- The SDK `PebbleTickEvent`: the time of the tick and the mask of the units
that changed. -/
structure PebbleTickEvent where
  tick_time : PblTm
  units_changed : Nat

/-- The state at program start: the initialiser of `image_slot_state`, and
zero-initialised globals otherwise. -/
def State.initial : State where
  image_slot_state := fun _ => EMPTY_SLOT
  image_containers := fun _ =>
    { bmp := none, compositing_mode := GCompOp.GCompOpAssign,
      origin_x := 0, origin_y := 0, has_parent := false }
  background_color := GColor.GColorBlack
  acquired := []
  released := 0

/-- Conversion of a C `int` to `unsigned short` (16 bits), as happens when an
`int` is passed for an `unsigned short` parameter. -/
def to_unsigned_short (x : Int) : Nat := (x % 65536).toNat

/-! ## Slot pool -/

/-- Source: `unload_digit_image_from_slot` (lines 57-73).  The array is indexed
without a guard, so an index outside `0 .. TOTAL_IMAGE_SLOTS - 1` gives
`none`. -/
def unload_digit_image_from_slot (slot_number : Int) (s : State) : Option State :=
  if h : 0 ≤ slot_number ∧ slot_number < TOTAL_IMAGE_SLOTS then
    let i : Fin TOTAL_IMAGE_SLOTS := ⟨slot_number.toNat, by unfold TOTAL_IMAGE_SLOTS at *; omega⟩
    if s.image_slot_state i ≠ EMPTY_SLOT then
      some { s with
        -- layer_remove_from_parent; bmp_deinit_container
        image_containers := Function.update s.image_containers i
          { s.image_containers i with has_parent := false, bmp := none }
        released := s.released + 1
        image_slot_state := Function.update s.image_slot_state i EMPTY_SLOT }
    else
      some s
  else
    none

/-- Source: the expression `isAm ? GCompOpAssignInverted:GCompOpAssign` of
`load_digit_image_into_slot` (line 102). -/
def compositing_mode_of (isAm : Bool) : GCompOp :=
  if isAm then GCompOp.GCompOpAssignInverted else GCompOp.GCompOpAssign

/-- Source: `load_digit_image_into_slot` (lines 75-106).  Every array access
comes after the guards, so the function is total. -/
def load_digit_image_into_slot (slot_number digit_value : Int) (isAm : Bool)
    (s : State) : State :=
  if hs : slot_number < 0 ∨ slot_number ≥ TOTAL_IMAGE_SLOTS then
    s
  else if hd : digit_value < 0 ∨ digit_value > 9 then
    s
  else
    let i : Fin TOTAL_IMAGE_SLOTS := ⟨slot_number.toNat, by unfold TOTAL_IMAGE_SLOTS at *; omega⟩
    let d : Fin NUMBER_OF_IMAGES := ⟨digit_value.toNat, by unfold NUMBER_OF_IMAGES; omega⟩
    if s.image_slot_state i ≠ EMPTY_SLOT then
      s
    else
      { s with
        image_slot_state := Function.update s.image_slot_state i digit_value
        acquired := IMAGE_RESOURCE_IDS d :: s.acquired
        image_containers := Function.update s.image_containers i
          { bmp := some (IMAGE_RESOURCE_IDS d)
            compositing_mode := compositing_mode_of isAm
            origin_x := (slot_number % 2) * 72
            origin_y := (slot_number / 2) * 84
            has_parent := true } }

/-! ## Time renderer -/

/-- Source: `display_value` (lines 109-138).  `value` and `row_number` are the
`unsigned short` arguments (below `65536`); the slot numbers are C `int`s. -/
def display_value (value row_number : Nat) (isAm : Bool) (s : State) : Option State :=
  let value := value % 100
  let slot_number : Int := ((row_number * 2 : Nat) : Int)
  (unload_digit_image_from_slot slot_number s).bind fun s =>
  let s :=
    if value < 10 ∧ row_number = 0 then
      load_digit_image_into_slot slot_number ((value % 10 : Nat) : Int) isAm s
    else
      load_digit_image_into_slot slot_number ((value / 10 : Nat) : Int) isAm s
  let slot_number : Int := ((row_number * 2 + 1 : Nat) : Int)
  (unload_digit_image_from_slot slot_number s).bind fun s =>
  if ¬ (value < 10 ∧ row_number = 0) then
    some (load_digit_image_into_slot slot_number ((value % 10 : Nat) : Int) isAm s)
  else
    unload_digit_image_from_slot slot_number s

/-- Source: `get_display_hour` (lines 141-152).  The SDK query
`clock_is_24h_style()` is the first argument; `hour` is the `unsigned short`
argument. -/
def get_display_hour (clock_is_24h_style : Bool) (hour : Nat) : Nat :=
  if clock_is_24h_style then
    hour
  else
    let display_hour := hour % 12
    if display_hour ≠ 0 then display_hour else 12

/-- Source: `display_time` (lines 155-173).  `HOUR_UNIT` and `MINUTE_UNIT` are
the SDK's `TimeUnits` flags, declared in a header that is not part of the
repository: they are arguments.  The two tests are C's logical `&&`, true when
both operands are non-zero.  `layer_mark_dirty` only requests a redraw and
changes nothing that `State` records. -/
def display_time (HOUR_UNIT MINUTE_UNIT : Nat) (clock_is_24h_style : Bool)
    (e : PebbleTickEvent) (s : State) : Option State :=
  let isAm : Bool := decide (e.tick_time.tm_hour < 11)
  let s : State :=
    if isAm then { s with background_color := GColor.GColorWhite }
    else { s with background_color := GColor.GColorBlack }
  let s : Option State :=
    if e.units_changed ≠ 0 ∧ HOUR_UNIT ≠ 0 then
      display_value
        (get_display_hour clock_is_24h_style (to_unsigned_short e.tick_time.tm_hour)) 0 isAm s
    else
      some s
  s.bind fun s =>
  if e.units_changed ≠ 0 ∧ MINUTE_UNIT ≠ 0 then
    display_value (to_unsigned_short e.tick_time.tm_min) 1 isAm s
  else
    some s

/-- Source: `handle_deinit` (lines 199-205): the loop
`for (int i = 0; i < TOTAL_IMAGE_SLOTS; i++)` over the unload. -/
def handle_deinit (s : State) : Option State :=
  (List.range TOTAL_IMAGE_SLOTS).foldlM
    (fun s i => unload_digit_image_from_slot ((i : Nat) : Int) s) s

/-! ## Vocabulary of the statements -/

/-- The container of slot `i` right after a successful load of digit `d`:
the five writes of `load_digit_image_into_slot` (lines 101-105). -/
def loaded_container (i : Fin TOTAL_IMAGE_SLOTS) (d : Fin NUMBER_OF_IMAGES)
    (isAm : Bool) : BmpContainer where
  bmp := some (IMAGE_RESOURCE_IDS d)
  compositing_mode := compositing_mode_of isAm
  origin_x := ((i.val : Int) % 2) * 72
  origin_y := ((i.val : Int) / 2) * 84
  has_parent := true

/-- The container `c` after the two SDK calls of
`unload_digit_image_from_slot` (lines 68-69). -/
def unloaded_container (c : BmpContainer) : BmpContainer :=
  { c with has_parent := false, bmp := none }

/-- The tens digit of the two-digit part of `value`: the source's
`value / 10` after `value = value % 100`. -/
def tens_digit (value : Nat) : Fin NUMBER_OF_IMAGES :=
  ⟨value % 100 / 10, by unfold NUMBER_OF_IMAGES; omega⟩

/-- The ones digit of the two-digit part of `value`: the source's
`value % 10` after `value = value % 100`. -/
def ones_digit (value : Nat) : Fin NUMBER_OF_IMAGES :=
  ⟨value % 100 % 10, by unfold NUMBER_OF_IMAGES; omega⟩

/-- Row 0 shows `value` the way `display_value value 0 isAm` leaves it: one
digit on the left and an empty right slot for a value below ten, two freshly
loaded digits otherwise. -/
def hour_row_shows (value : Nat) (isAm : Bool) (s : State) : Prop :=
  if value % 100 < 10 then
    s.image_slot_state 0 = ((ones_digit value).val : Int) ∧
    s.image_containers 0 = loaded_container 0 (ones_digit value) isAm ∧
    s.image_slot_state 1 = EMPTY_SLOT
  else
    s.image_slot_state 0 = ((tens_digit value).val : Int) ∧
    s.image_containers 0 = loaded_container 0 (tens_digit value) isAm ∧
    s.image_slot_state 1 = ((ones_digit value).val : Int) ∧
    s.image_containers 1 = loaded_container 1 (ones_digit value) isAm

instance (value : Nat) (isAm : Bool) (s : State) : Decidable (hour_row_shows value isAm s) := by
  unfold hour_row_shows
  infer_instance

/-- Row 1 shows `value` the way `display_value value 1 isAm` leaves it: two
freshly loaded digits. -/
def minute_row_shows (value : Nat) (isAm : Bool) (s : State) : Prop :=
  s.image_slot_state 2 = ((tens_digit value).val : Int) ∧
  s.image_containers 2 = loaded_container 2 (tens_digit value) isAm ∧
  s.image_slot_state 3 = ((ones_digit value).val : Int) ∧
  s.image_containers 3 = loaded_container 3 (ones_digit value) isAm

instance (value : Nat) (isAm : Bool) (s : State) : Decidable (minute_row_shows value isAm s) := by
  unfold minute_row_shows
  infer_instance

/-- The number of resources held: loads minus releases. -/
def State.live (s : State) : Int := (s.acquired.length : Int) - (s.released : Int)

/-- The number of occupied slots. -/
def State.occupied (s : State) : Nat :=
  (Finset.univ.filter fun i => s.image_slot_state i ≠ EMPTY_SLOT).card

/-- The occupancy and resource invariant of the pool: every slot is empty or
holds a digit in `[0,9]`; a container holds an image resource exactly when its
slot is occupied; and the resources held are as many as the occupied slots. -/
def pool_invariant (s : State) : Prop :=
  (∀ i, s.image_slot_state i = EMPTY_SLOT ∨
    (0 ≤ s.image_slot_state i ∧ s.image_slot_state i ≤ 9)) ∧
  (∀ i, (s.image_containers i).bmp ≠ none ↔ s.image_slot_state i ≠ EMPTY_SLOT) ∧
  s.live = (s.occupied : Int)

instance (s : State) : Decidable (pool_invariant s) := by
  unfold pool_invariant
  infer_instance

/-- None of the three guards of `load_digit_image_into_slot` (lines 87-97)
fires: the slot number is in `[0,3]`, the digit is in `[0,9]`, and the
addressed slot is empty. -/
def load_takes_effect (slot_number digit_value : Int) (s : State) : Prop :=
  (0 ≤ slot_number ∧ slot_number < TOTAL_IMAGE_SLOTS) ∧
  (0 ≤ digit_value ∧ digit_value ≤ 9) ∧
  ∀ i : Fin TOTAL_IMAGE_SLOTS, (i.val : Int) = slot_number →
    s.image_slot_state i = EMPTY_SLOT

instance (slot_number digit_value : Int) (s : State) :
    Decidable (load_takes_effect slot_number digit_value s) := by
  unfold load_takes_effect
  infer_instance

/-- One call into the program: a load with any arguments, an unload of a slot
inside the array, a `display_value` on one of the two rows, or a
`display_time`. -/
inductive Call where
  | load (slot_number digit_value : Int) (isAm : Bool)
  | unload (slot_number : Fin TOTAL_IMAGE_SLOTS)
  | display_value (value : Nat) (row_number : Fin 2) (isAm : Bool)
  | display_time (clock_is_24h_style : Bool) (e : PebbleTickEvent)

/-- The effect of one call on the state. -/
def Call.run (HOUR_UNIT MINUTE_UNIT : Nat) : Call → State → Option State
  | Call.load slot_number digit_value isAm, s =>
      some (load_digit_image_into_slot slot_number digit_value isAm s)
  | Call.unload slot_number, s =>
      unload_digit_image_from_slot ((slot_number.val : Nat) : Int) s
  | Call.display_value value row_number isAm, s =>
      BigTimePlus.display_value value row_number.val isAm s
  | Call.display_time clock_is_24h_style e, s =>
      BigTimePlus.display_time HOUR_UNIT MINUTE_UNIT clock_is_24h_style e s

/-- The effect of a sequence of calls, first call first. -/
def run_calls (HOUR_UNIT MINUTE_UNIT : Nat) : List Call → State → Option State
  | [], s => some s
  | c :: cs, s => (c.run HOUR_UNIT MINUTE_UNIT s).bind (run_calls HOUR_UNIT MINUTE_UNIT cs)

/-! ## Basic facts about the slot pool -/

/-- What `unload_digit_image_from_slot` returns for an index inside the
array. -/
theorem unload_of_eq (n : Int) (i : Fin TOTAL_IMAGE_SLOTS) (hn : n = (i.val : Int))
    (s : State) :
    unload_digit_image_from_slot n s =
      some (if s.image_slot_state i ≠ EMPTY_SLOT then
        { s with
          image_containers := Function.update s.image_containers i
            { s.image_containers i with has_parent := false, bmp := none }
          released := s.released + 1
          image_slot_state := Function.update s.image_slot_state i EMPTY_SLOT }
      else s) := by
  subst hn
  have hi : (i.val : Int) < TOTAL_IMAGE_SLOTS := by exact_mod_cast i.isLt
  have h0 : (0 : Int) ≤ (i.val : Int) := Int.natCast_nonneg _
  unfold unload_digit_image_from_slot
  rw [dif_pos ⟨h0, hi⟩]
  have hfin : (⟨((i.val : Int)).toNat, by simp⟩ : Fin TOTAL_IMAGE_SLOTS) = i := by
    apply Fin.ext; simp
  simp only [hfin]
  split_ifs <;> rfl

/-- What `load_digit_image_into_slot` returns for an index inside the array
and a digit inside the table. -/
theorem load_of_eq (n g : Int) (i : Fin TOTAL_IMAGE_SLOTS) (d : Fin NUMBER_OF_IMAGES)
    (hn : n = (i.val : Int)) (hg : g = (d.val : Int)) (isAm : Bool) (s : State) :
    load_digit_image_into_slot n g isAm s =
      if s.image_slot_state i ≠ EMPTY_SLOT then s
      else
        { s with
          image_slot_state := Function.update s.image_slot_state i (d.val : Int)
          acquired := IMAGE_RESOURCE_IDS d :: s.acquired
          image_containers := Function.update s.image_containers i
            { bmp := some (IMAGE_RESOURCE_IDS d)
              compositing_mode := compositing_mode_of isAm
              origin_x := ((i.val : Int) % 2) * 72
              origin_y := ((i.val : Int) / 2) * 84
              has_parent := true } } := by
  subst hn hg
  have hi : (i.val : Int) < TOTAL_IMAGE_SLOTS := by exact_mod_cast i.isLt
  have h0 : (0 : Int) ≤ (i.val : Int) := Int.natCast_nonneg _
  have hd : (d.val : Int) < NUMBER_OF_IMAGES := by exact_mod_cast d.isLt
  have hd0 : (0 : Int) ≤ (d.val : Int) := Int.natCast_nonneg _
  unfold load_digit_image_into_slot
  have h1 : ¬ ((i.val : Int) < 0 ∨ (i.val : Int) ≥ TOTAL_IMAGE_SLOTS) := by omega
  have h2 : ¬ ((d.val : Int) < 0 ∨ (d.val : Int) > 9) := by
    unfold NUMBER_OF_IMAGES at hd; omega
  rw [dif_neg h1, dif_neg h2]
  have hfi : (⟨((i.val : Int)).toNat, by simp⟩ : Fin TOTAL_IMAGE_SLOTS) = i := by
    apply Fin.ext; simp
  have hfd : (⟨((d.val : Int)).toNat, by simp⟩ : Fin NUMBER_OF_IMAGES) = d := by
    apply Fin.ext; simp
  simp only [hfi, hfd]

/-- A load over an occupied slot returns the state it was given, whatever the
digit. -/
theorem load_of_occupied (n g : Int) (i : Fin TOTAL_IMAGE_SLOTS) (hn : n = (i.val : Int))
    (isAm : Bool) (s : State) (ho : s.image_slot_state i ≠ EMPTY_SLOT) :
    load_digit_image_into_slot n g isAm s = s := by
  subst hn
  unfold load_digit_image_into_slot
  have hlt : i.val < 4 := i.isLt
  have hs : ¬ ((i.val : Int) < 0 ∨ (i.val : Int) ≥ TOTAL_IMAGE_SLOTS) := by
    unfold TOTAL_IMAGE_SLOTS; omega
  rw [dif_neg hs]
  by_cases hd : g < 0 ∨ g > 9
  · rw [dif_pos hd]
  · rw [dif_neg hd]
    have hfin : (⟨((i.val : Int)).toNat, by simp⟩ : Fin TOTAL_IMAGE_SLOTS) = i := by
      apply Fin.ext; simp
    simp only [hfin, ho, ne_eq, not_false_eq_true, if_true]

/-- Unload followed by load on the same slot: the slot ends with the digit and
a freshly loaded container, whatever it held before. -/
theorem reload_spec (n g : Int) (i : Fin TOTAL_IMAGE_SLOTS) (d : Fin NUMBER_OF_IMAGES)
    (hn : n = (i.val : Int)) (hg : g = (d.val : Int)) (isAm : Bool) (s : State) :
    ∃ s1, unload_digit_image_from_slot n s = some s1 ∧
      s1.image_slot_state i = EMPTY_SLOT ∧
      (load_digit_image_into_slot n g isAm s1).image_slot_state =
        Function.update s.image_slot_state i (d.val : Int) ∧
      (load_digit_image_into_slot n g isAm s1).image_containers =
        Function.update s.image_containers i (loaded_container i d isAm) ∧
      (load_digit_image_into_slot n g isAm s1).background_color = s.background_color := by
  refine ⟨_, unload_of_eq n i hn s, ?_, ?_, ?_, ?_⟩
  · split_ifs with h
    · simp
    · simpa using h
  all_goals
    rw [load_of_eq n g i d hn hg]
    by_cases h : s.image_slot_state i = EMPTY_SLOT
    · simp [h, loaded_container]
    · simp [h, loaded_container]

/-- Unload on a slot inside the array: the slot ends empty; its container is
detached and released when it was occupied and is left alone otherwise. -/
theorem unload_spec (n : Int) (i : Fin TOTAL_IMAGE_SLOTS) (hn : n = (i.val : Int))
    (s : State) :
    ∃ s1, unload_digit_image_from_slot n s = some s1 ∧
      s1.image_slot_state = Function.update s.image_slot_state i EMPTY_SLOT ∧
      s1.image_containers =
        Function.update s.image_containers i
          (if s.image_slot_state i ≠ EMPTY_SLOT then unloaded_container (s.image_containers i)
           else s.image_containers i) ∧
      s1.background_color = s.background_color := by
  refine ⟨_, unload_of_eq n i hn s, ?_, ?_, ?_⟩
  all_goals
    by_cases h : s.image_slot_state i = EMPTY_SLOT
    · simp [h]
      try exact h.symm
    · simp [h, unloaded_container]

/-! ## What `display_value` leaves behind -/

/-- Two-digit branch of `display_value` (the minute row, or an hour of at
least ten): both slots of the row are reloaded. -/
theorem display_value_two (v r : Nat) (L R : Fin TOTAL_IMAGE_SLOTS)
    (hL : L.val = r * 2) (hR : R.val = r * 2 + 1)
    (h : ¬ (v % 100 < 10 ∧ r = 0)) (isAm : Bool) (s : State) :
    ∃ s', display_value v r isAm s = some s' ∧
      s'.image_slot_state =
        Function.update (Function.update s.image_slot_state L ((tens_digit v).val : Int))
          R ((ones_digit v).val : Int) ∧
      s'.image_containers =
        Function.update
          (Function.update s.image_containers L (loaded_container L (tens_digit v) isAm))
          R (loaded_container R (ones_digit v) isAm) ∧
      s'.background_color = s.background_color := by
  unfold display_value
  simp only []
  obtain ⟨s1, hu1, -, hs1, hc1, hb1⟩ :=
    reload_spec ((r * 2 : Nat) : Int) ((v % 100 / 10 : Nat) : Int) L (tens_digit v)
      (by rw [hL]) rfl isAm s
  rw [hu1, Option.some_bind, if_neg h]
  obtain ⟨s2, hu2, -, hs2, hc2, hb2⟩ :=
    reload_spec ((r * 2 + 1 : Nat) : Int) ((v % 100 % 10 : Nat) : Int) R (ones_digit v)
      (by rw [hR]) rfl isAm
      (load_digit_image_into_slot ((r * 2 : Nat) : Int) ((v % 100 / 10 : Nat) : Int) isAm s1)
  rw [hu2, Option.some_bind, if_pos h]
  exact ⟨_, rfl, by rw [hs2, hs1], by rw [hc2, hc1], by rw [hb2, hb1]⟩

/-- Single-digit branch of `display_value` (row 0 and a value below ten): the
left slot is reloaded with the digit and the right slot is unloaded. -/
theorem display_value_one (v : Nat) (h : v % 100 < 10) (isAm : Bool) (s : State) :
    ∃ s', display_value v 0 isAm s = some s' ∧
      s'.image_slot_state =
        Function.update (Function.update s.image_slot_state 0 ((ones_digit v).val : Int))
          1 EMPTY_SLOT ∧
      s'.image_containers =
        Function.update
          (Function.update s.image_containers 0 (loaded_container 0 (ones_digit v) isAm))
          1 (if s.image_slot_state 1 ≠ EMPTY_SLOT then unloaded_container (s.image_containers 1)
             else s.image_containers 1) ∧
      s'.background_color = s.background_color := by
  have h01 : (1 : Fin TOTAL_IMAGE_SLOTS) ≠ 0 := by decide
  unfold display_value
  simp only []
  obtain ⟨s1, hu1, -, hs1, hc1, hb1⟩ :=
    reload_spec ((0 * 2 : Nat) : Int) ((v % 100 % 10 : Nat) : Int) 0 (ones_digit v)
      rfl rfl isAm s
  rw [hu1, Option.some_bind, if_pos ⟨h, trivial⟩]
  obtain ⟨s2, hu2, hs2, hc2, hb2⟩ :=
    unload_spec ((0 * 2 + 1 : Nat) : Int) 1 rfl
      (load_digit_image_into_slot ((0 * 2 : Nat) : Int) ((v % 100 % 10 : Nat) : Int) isAm s1)
  rw [hu2, Option.some_bind, if_neg (not_not.mpr ⟨h, trivial⟩)]
  obtain ⟨s3, hu3, hs3, hc3, hb3⟩ := unload_spec ((0 * 2 + 1 : Nat) : Int) 1 rfl s2
  refine ⟨s3, hu3, ?_, ?_, ?_⟩
  · rw [hs3, hs2, hs1, Function.update_idem]
  · rw [hc3, hs2, hc2, hs1, hc1]
    simp [Function.update_noteq h01]
  · rw [hb3, hb2, hb1]

/-- Everything `display_value` does on row 0: it returns, keeps the
background and row 1, leaves row 0 showing the value, and changes neither the
slot table nor the containers when row 0 already showed the value. -/
theorem hour_row_display (v : Nat) (isAm : Bool) (s : State) :
    ∃ s', display_value v 0 isAm s = some s' ∧
      s'.background_color = s.background_color ∧
      (s'.image_slot_state 2 = s.image_slot_state 2 ∧
        s'.image_containers 2 = s.image_containers 2 ∧
        s'.image_slot_state 3 = s.image_slot_state 3 ∧
        s'.image_containers 3 = s.image_containers 3) ∧
      hour_row_shows v isAm s' ∧
      (hour_row_shows v isAm s →
        s'.image_slot_state = s.image_slot_state ∧
        s'.image_containers = s.image_containers) := by
  have h01 : (0 : Fin TOTAL_IMAGE_SLOTS) ≠ 1 := by decide
  have h20 : (2 : Fin TOTAL_IMAGE_SLOTS) ≠ 0 := by decide
  have h21 : (2 : Fin TOTAL_IMAGE_SLOTS) ≠ 1 := by decide
  have h30 : (3 : Fin TOTAL_IMAGE_SLOTS) ≠ 0 := by decide
  have h31 : (3 : Fin TOTAL_IMAGE_SLOTS) ≠ 1 := by decide
  by_cases h : v % 100 < 10
  · obtain ⟨s', hr, hs, hc, hb⟩ := display_value_one v h isAm s
    refine ⟨s', hr, hb, ?_, ?_, ?_⟩
    · simp [hs, hc, Function.update_noteq, h20, h21, h30, h31]
    · simp only [hour_row_shows, if_pos h]
      simp [hs, hc, Function.update_noteq h01]
    · intro hsh
      simp only [hour_row_shows, if_pos h] at hsh
      obtain ⟨a0, c0, a1⟩ := hsh
      constructor
      · rw [hs, ← a0, Function.update_eq_self, ← a1, Function.update_eq_self]
      · rw [hc, ← c0, Function.update_eq_self]
        simp [a1]
  · obtain ⟨s', hr, hs, hc, hb⟩ := display_value_two v 0 0 1 rfl rfl (by tauto) isAm s
    refine ⟨s', hr, hb, ?_, ?_, ?_⟩
    · simp [hs, hc, Function.update_noteq, h20, h21, h30, h31]
    · simp only [hour_row_shows, if_neg h]
      simp [hs, hc, Function.update_noteq h01]
    · intro hsh
      simp only [hour_row_shows, if_neg h] at hsh
      obtain ⟨a0, c0, a1, c1⟩ := hsh
      constructor
      · rw [hs, ← a0, Function.update_eq_self, ← a1, Function.update_eq_self]
      · rw [hc, ← c0, Function.update_eq_self, ← c1, Function.update_eq_self]

/-- Everything `display_value` does on row 1: it returns, keeps the
background and row 0, leaves row 1 showing the value, and changes neither the
slot table nor the containers when row 1 already showed the value. -/
theorem minute_row_display (v : Nat) (isAm : Bool) (s : State) :
    ∃ s', display_value v 1 isAm s = some s' ∧
      s'.background_color = s.background_color ∧
      (s'.image_slot_state 0 = s.image_slot_state 0 ∧
        s'.image_containers 0 = s.image_containers 0 ∧
        s'.image_slot_state 1 = s.image_slot_state 1 ∧
        s'.image_containers 1 = s.image_containers 1) ∧
      minute_row_shows v isAm s' ∧
      (minute_row_shows v isAm s →
        s'.image_slot_state = s.image_slot_state ∧
        s'.image_containers = s.image_containers) := by
  have h23 : (2 : Fin TOTAL_IMAGE_SLOTS) ≠ 3 := by decide
  have h02 : (0 : Fin TOTAL_IMAGE_SLOTS) ≠ 2 := by decide
  have h03 : (0 : Fin TOTAL_IMAGE_SLOTS) ≠ 3 := by decide
  have h12 : (1 : Fin TOTAL_IMAGE_SLOTS) ≠ 2 := by decide
  have h13 : (1 : Fin TOTAL_IMAGE_SLOTS) ≠ 3 := by decide
  obtain ⟨s', hr, hs, hc, hb⟩ := display_value_two v 1 2 3 rfl rfl (by omega) isAm s
  refine ⟨s', hr, hb, ?_, ?_, ?_⟩
  · simp [hs, hc, Function.update_noteq, h02, h03, h12, h13]
  · simp only [minute_row_shows]
    simp [hs, hc, Function.update_noteq h23]
  · intro hsh
    obtain ⟨a0, c0, a1, c1⟩ := hsh
    constructor
    · rw [hs, ← a0, Function.update_eq_self, ← a1, Function.update_eq_self]
    · rw [hc, ← c0, Function.update_eq_self, ← c1, Function.update_eq_self]

/-- An `int` that fits in 16 bits is passed to an `unsigned short` parameter
unchanged. -/
theorem to_unsigned_short_natCast (n : Nat) (h : n < 65536) :
    to_unsigned_short (n : Int) = n := by
  unfold to_unsigned_short
  have : ((n : Int) % 65536) = ((n % 65536 : Nat) : Int) := by push_cast; rfl
  rw [this, Int.toNat_natCast, Nat.mod_eq_of_lt h]

/-- A mask that has a flag's bit set is non-zero, and so is the flag: the
logical test of `display_time` passes whenever the bitwise one would. -/
theorem logical_of_bitwise (mask flag : Nat) (h : mask &&& flag ≠ 0) :
    mask ≠ 0 ∧ flag ≠ 0 := by
  constructor
  · rintro rfl
    exact h (by simp)
  · rintro rfl
    exact h (by simp)

/-- In a row 0 that shows a value, every occupied slot is composited with the
mode of the style flag. -/
theorem hour_row_shows_mode (v : Nat) (isAm : Bool) (s : State)
    (h : hour_row_shows v isAm s) (i : Fin TOTAL_IMAGE_SLOTS) (hi : i.val < 2)
    (ho : s.image_slot_state i ≠ EMPTY_SLOT) :
    (s.image_containers i).compositing_mode = compositing_mode_of isAm := by
  unfold hour_row_shows at h
  have hi' : i = 0 ∨ i = 1 := by
    have hv : i.val = 0 ∨ i.val = 1 := by omega
    rcases hv with hv | hv
    · exact Or.inl (Fin.ext hv)
    · exact Or.inr (Fin.ext hv)
  split_ifs at h with hv
  · obtain ⟨-, c0, a1⟩ := h
    rcases hi' with rfl | rfl
    · rw [c0]; rfl
    · exact absurd a1 ho
  · obtain ⟨-, c0, -, c1⟩ := h
    rcases hi' with rfl | rfl
    · rw [c0]; rfl
    · rw [c1]; rfl

/-- In a row 1 that shows a value, both slots are composited with the mode of
the style flag. -/
theorem minute_row_shows_mode (v : Nat) (isAm : Bool) (s : State)
    (h : minute_row_shows v isAm s) (i : Fin TOTAL_IMAGE_SLOTS) (hi : 2 ≤ i.val) :
    (s.image_containers i).compositing_mode = compositing_mode_of isAm := by
  obtain ⟨-, c2, -, c3⟩ := h
  have hi' : i = 2 ∨ i = 3 := by
    have hv : i.val = 2 ∨ i.val = 3 := by
      have hlt : i.val < 4 := i.isLt
      omega
    rcases hv with hv | hv
    · exact Or.inl (Fin.ext hv)
    · exact Or.inr (Fin.ext hv)
  rcases hi' with rfl | rfl
  · rw [c2]; rfl
  · rw [c3]; rfl

/-! ## What `display_time` leaves behind -/

/-- The hour step of `display_time`: row 0 is displayed when the condition
holds and nothing happens otherwise. -/
theorem hour_step (c : Prop) [Decidable c] (v : Nat) (isAm : Bool) (s : State) :
    ∃ s', (if c then display_value v 0 isAm s else some s) = some s' ∧
      s'.background_color = s.background_color ∧
      (s'.image_slot_state 2 = s.image_slot_state 2 ∧
        s'.image_containers 2 = s.image_containers 2 ∧
        s'.image_slot_state 3 = s.image_slot_state 3 ∧
        s'.image_containers 3 = s.image_containers 3) ∧
      (c → hour_row_shows v isAm s') ∧
      (¬ c → s' = s) ∧
      ((c → hour_row_shows v isAm s) →
        s'.image_slot_state = s.image_slot_state ∧
        s'.image_containers = s.image_containers) := by
  by_cases hc : c
  · obtain ⟨s', hr, hb, hf, hsh, hab⟩ := hour_row_display v isAm s
    exact ⟨s', by rw [if_pos hc, hr], hb, hf, fun _ => hsh, fun h => absurd hc h,
      fun h => hab (h hc)⟩
  · exact ⟨s, by rw [if_neg hc], rfl, ⟨rfl, rfl, rfl, rfl⟩, fun h => absurd h hc,
      fun _ => rfl, fun _ => ⟨rfl, rfl⟩⟩

/-- The minute step of `display_time`: row 1 is displayed when the condition
holds and nothing happens otherwise. -/
theorem minute_step (c : Prop) [Decidable c] (v : Nat) (isAm : Bool) (s : State) :
    ∃ s', (if c then display_value v 1 isAm s else some s) = some s' ∧
      s'.background_color = s.background_color ∧
      (s'.image_slot_state 0 = s.image_slot_state 0 ∧
        s'.image_containers 0 = s.image_containers 0 ∧
        s'.image_slot_state 1 = s.image_slot_state 1 ∧
        s'.image_containers 1 = s.image_containers 1) ∧
      (c → minute_row_shows v isAm s') ∧
      (¬ c → s' = s) ∧
      ((c → minute_row_shows v isAm s) →
        s'.image_slot_state = s.image_slot_state ∧
        s'.image_containers = s.image_containers) := by
  by_cases hc : c
  · obtain ⟨s', hr, hb, hf, hsh, hab⟩ := minute_row_display v isAm s
    exact ⟨s', by rw [if_pos hc, hr], hb, hf, fun _ => hsh, fun h => absurd hc h,
      fun h => hab (h hc)⟩
  · exact ⟨s, by rw [if_neg hc], rfl, ⟨rfl, rfl, rfl, rfl⟩, fun h => absurd h hc,
      fun _ => rfl, fun _ => ⟨rfl, rfl⟩⟩

/-- Whether row 0 shows a value depends on slots 0 and 1 only. -/
theorem hour_row_shows_congr (v : Nat) (isAm : Bool) (s t : State)
    (h : t.image_slot_state 0 = s.image_slot_state 0 ∧
      t.image_containers 0 = s.image_containers 0 ∧
      t.image_slot_state 1 = s.image_slot_state 1 ∧
      t.image_containers 1 = s.image_containers 1) :
    hour_row_shows v isAm s → hour_row_shows v isAm t := by
  obtain ⟨a0, c0, a1, c1⟩ := h
  unfold hour_row_shows
  rw [a0, c0, a1, c1]
  exact id

/-- Whether row 1 shows a value depends on slots 2 and 3 only. -/
theorem minute_row_shows_congr (v : Nat) (isAm : Bool) (s t : State)
    (h : t.image_slot_state 2 = s.image_slot_state 2 ∧
      t.image_containers 2 = s.image_containers 2 ∧
      t.image_slot_state 3 = s.image_slot_state 3 ∧
      t.image_containers 3 = s.image_containers 3) :
    minute_row_shows v isAm s → minute_row_shows v isAm t := by
  obtain ⟨a0, c0, a1, c1⟩ := h
  unfold minute_row_shows
  rw [a0, c0, a1, c1]
  exact id

/-- The body of `display_time`, with the background written as one
conditional. -/
theorem display_time_eq (HOUR_UNIT MINUTE_UNIT : Nat) (mode : Bool)
    (e : PebbleTickEvent) (s : State) :
    display_time HOUR_UNIT MINUTE_UNIT mode e s =
      (if e.units_changed ≠ 0 ∧ HOUR_UNIT ≠ 0 then
          display_value (get_display_hour mode (to_unsigned_short e.tick_time.tm_hour)) 0
            (decide (e.tick_time.tm_hour < 11))
            { s with background_color :=
                if e.tick_time.tm_hour < 11 then GColor.GColorWhite else GColor.GColorBlack }
        else
          some { s with background_color :=
                if e.tick_time.tm_hour < 11 then GColor.GColorWhite
                else GColor.GColorBlack }).bind fun s1 =>
        if e.units_changed ≠ 0 ∧ MINUTE_UNIT ≠ 0 then
          display_value (to_unsigned_short e.tick_time.tm_min) 1
            (decide (e.tick_time.tm_hour < 11)) s1
        else some s1 := by
  unfold display_time
  by_cases ha : e.tick_time.tm_hour < 11 <;> simp [ha]

/-- Everything `display_time` does: it returns; the background follows the
hour; a row whose test passes shows its value and a row whose test fails is
as before; and when the background and the tested rows were already in place,
the slot table and the containers do not change. -/
theorem display_time_spec (HOUR_UNIT MINUTE_UNIT : Nat) (mode : Bool)
    (e : PebbleTickEvent) (s : State) :
    ∃ s', display_time HOUR_UNIT MINUTE_UNIT mode e s = some s' ∧
      s'.background_color =
        (if e.tick_time.tm_hour < 11 then GColor.GColorWhite else GColor.GColorBlack) ∧
      (e.units_changed ≠ 0 ∧ HOUR_UNIT ≠ 0 →
        hour_row_shows (get_display_hour mode (to_unsigned_short e.tick_time.tm_hour))
          (decide (e.tick_time.tm_hour < 11)) s') ∧
      (¬ (e.units_changed ≠ 0 ∧ HOUR_UNIT ≠ 0) →
        s'.image_slot_state 0 = s.image_slot_state 0 ∧
        s'.image_containers 0 = s.image_containers 0 ∧
        s'.image_slot_state 1 = s.image_slot_state 1 ∧
        s'.image_containers 1 = s.image_containers 1) ∧
      (e.units_changed ≠ 0 ∧ MINUTE_UNIT ≠ 0 →
        minute_row_shows (to_unsigned_short e.tick_time.tm_min)
          (decide (e.tick_time.tm_hour < 11)) s') ∧
      (¬ (e.units_changed ≠ 0 ∧ MINUTE_UNIT ≠ 0) →
        s'.image_slot_state 2 = s.image_slot_state 2 ∧
        s'.image_containers 2 = s.image_containers 2 ∧
        s'.image_slot_state 3 = s.image_slot_state 3 ∧
        s'.image_containers 3 = s.image_containers 3) ∧
      ((e.units_changed ≠ 0 ∧ HOUR_UNIT ≠ 0 →
          hour_row_shows (get_display_hour mode (to_unsigned_short e.tick_time.tm_hour))
            (decide (e.tick_time.tm_hour < 11)) s) →
        (e.units_changed ≠ 0 ∧ MINUTE_UNIT ≠ 0 →
          minute_row_shows (to_unsigned_short e.tick_time.tm_min)
            (decide (e.tick_time.tm_hour < 11)) s) →
        s'.image_slot_state = s.image_slot_state ∧
        s'.image_containers = s.image_containers) := by
  rw [display_time_eq]
  obtain ⟨s1, r1, b1, f1, sh1, un1, ab1⟩ :=
    hour_step (e.units_changed ≠ 0 ∧ HOUR_UNIT ≠ 0)
      (get_display_hour mode (to_unsigned_short e.tick_time.tm_hour))
      (decide (e.tick_time.tm_hour < 11))
      { s with background_color :=
          if e.tick_time.tm_hour < 11 then GColor.GColorWhite else GColor.GColorBlack }
  obtain ⟨s2, r2, b2, f2, sh2, un2, ab2⟩ :=
    minute_step (e.units_changed ≠ 0 ∧ MINUTE_UNIT ≠ 0)
      (to_unsigned_short e.tick_time.tm_min) (decide (e.tick_time.tm_hour < 11)) s1
  rw [r1, Option.some_bind, r2]
  refine ⟨s2, rfl, by rw [b2, b1], ?_, ?_, sh2, ?_, ?_⟩
  · intro hc
    exact hour_row_shows_congr _ _ s1 s2 f2 (sh1 hc)
  · intro hc
    have := un1 hc
    subst this
    exact f2
  · intro hc
    have := un2 hc
    subst this
    exact f1
  · intro hh hm
    have e1 := ab1 (fun hc => hour_row_shows_congr _ _ s _ ⟨rfl, rfl, rfl, rfl⟩ (hh hc))
    have e2 := ab2 (fun hc => minute_row_shows_congr _ _ s s1
      (by rw [f1.1, f1.2.1, f1.2.2.1, f1.2.2.2]; exact ⟨rfl, rfl, rfl, rfl⟩) (hm hc))
    exact ⟨by rw [e2.1, e1.1], by rw [e2.2, e1.2]⟩

/-! ## Claims about `display_value` and `get_display_hour` -/

/-- C2: for every prior state, style flag and value `v` in `[0,99]`,
`display_value v 0` returns, and afterwards: when `v < 10`, slot 0 holds the
glyph `v` (freshly loaded with that style) and slot 1 is empty; when
`v >= 10`, slot 0 holds `v / 10` and slot 1 holds `v % 10`, both freshly loaded
with that style. -/
theorem display_value_hour_row (s : State) (isAm : Bool) (v : Nat) (hv : v ≤ 99) :
    ∃ s', display_value v 0 isAm s = some s' ∧
      (v < 10 →
        s'.image_slot_state 0 = (v : Int) ∧
        s'.image_containers 0 = loaded_container 0 (ones_digit v) isAm ∧
        s'.image_slot_state 1 = EMPTY_SLOT) ∧
      (10 ≤ v →
        s'.image_slot_state 0 = ((v / 10 : Nat) : Int) ∧
        s'.image_containers 0 = loaded_container 0 (tens_digit v) isAm ∧
        s'.image_slot_state 1 = ((v % 10 : Nat) : Int) ∧
        s'.image_containers 1 = loaded_container 1 (ones_digit v) isAm) := by
  have h01 : (0 : Fin TOTAL_IMAGE_SLOTS) ≠ 1 := by decide
  have hmod : v % 100 = v := Nat.mod_eq_of_lt (by omega)
  by_cases h : v < 10
  · obtain ⟨s', hr, hs, hc, -⟩ := display_value_one v (by omega) isAm s
    refine ⟨s', hr, fun _ => ⟨?_, ?_, ?_⟩, fun h10 => absurd h10 (by omega)⟩
    · rw [hs, Function.update_noteq h01, Function.update_same]
      simp only [ones_digit, hmod, Nat.mod_eq_of_lt h]
    · rw [hc, Function.update_noteq h01, Function.update_same]
    · rw [hs, Function.update_same]
  · obtain ⟨s', hr, hs, hc, -⟩ :=
      display_value_two v 0 0 1 rfl rfl (by omega) isAm s
    refine ⟨s', hr, fun h9 => absurd h9 h, fun _ => ⟨?_, ?_, ?_, ?_⟩⟩
    · rw [hs, Function.update_noteq h01, Function.update_same]
      simp only [tens_digit, hmod]
    · rw [hc, Function.update_noteq h01, Function.update_same]
    · rw [hs, Function.update_same]
      simp only [ones_digit, hmod]
    · rw [hc, Function.update_same]

/-- Witness of C2 at the spec's two examples: `7` gives left 7 and right
empty, `23` gives left 2 and right 3. -/
theorem display_value_hour_row_witness :
    (∃ s', display_value 7 0 true State.initial = some s' ∧
      s'.image_slot_state 0 = 7 ∧ s'.image_slot_state 1 = EMPTY_SLOT) ∧
    (∃ s', display_value 23 0 false State.initial = some s' ∧
      s'.image_slot_state 0 = 2 ∧ s'.image_slot_state 1 = 3) := by
  constructor
  · obtain ⟨s', hr, h1, -⟩ := display_value_hour_row State.initial true 7 (by decide)
    exact ⟨s', hr, (h1 (by decide)).1, (h1 (by decide)).2.2⟩
  · obtain ⟨s', hr, -, h2⟩ := display_value_hour_row State.initial false 23 (by decide)
    exact ⟨s', hr, (h2 (by decide)).1, (h2 (by decide)).2.2.1⟩

/-- C3: for every prior state, style flag and value `v` in `[0,99]`,
`display_value v 1` returns, and afterwards slot 2 holds `v / 10` and slot 3
holds `v % 10`, both freshly loaded with that style; a value below ten gets a
leading zero. -/
theorem display_value_minute_row (s : State) (isAm : Bool) (v : Nat) (hv : v ≤ 99) :
    ∃ s', display_value v 1 isAm s = some s' ∧
      s'.image_slot_state 2 = ((v / 10 : Nat) : Int) ∧
      s'.image_containers 2 = loaded_container 2 (tens_digit v) isAm ∧
      s'.image_slot_state 3 = ((v % 10 : Nat) : Int) ∧
      s'.image_containers 3 = loaded_container 3 (ones_digit v) isAm ∧
      (v < 10 → s'.image_slot_state 2 = 0) := by
  have h23 : (2 : Fin TOTAL_IMAGE_SLOTS) ≠ 3 := by decide
  have hmod : v % 100 = v := Nat.mod_eq_of_lt (by omega)
  obtain ⟨s', hr, hs, hc, -⟩ :=
    display_value_two v 1 2 3 rfl rfl (by omega) isAm s
  have h2 : s'.image_slot_state 2 = ((v / 10 : Nat) : Int) := by
    rw [hs, Function.update_noteq h23, Function.update_same]
    simp only [tens_digit, hmod]
  refine ⟨s', hr, h2, ?_, ?_, ?_, ?_⟩
  · rw [hc, Function.update_noteq h23, Function.update_same]
  · rw [hs, Function.update_same]
    simp only [ones_digit, hmod]
  · rw [hc, Function.update_same]
  · intro h
    rw [h2, Nat.div_eq_of_lt h]
    rfl

/-- Witness of C3 at the spec's example: `5` on row 1 shows `0` then `5`. -/
theorem display_value_minute_row_witness :
    ∃ s', display_value 5 1 true State.initial = some s' ∧
      s'.image_slot_state 2 = 0 ∧ s'.image_slot_state 3 = 5 := by
  obtain ⟨s', hr, h2, -, h3, -, -⟩ := display_value_minute_row State.initial true 5 (by decide)
  exact ⟨s', hr, h2, h3⟩

/-- C4: for every hour `h` (in particular for `h` in `[0,23]`): in 24-hour mode
`get_display_hour` returns `h`; in 12-hour mode it returns `12` when
`h % 12 = 0` and `h % 12` otherwise, so the result lies in `[1,12]` and is
congruent to `h` modulo 12. -/
theorem get_display_hour_spec (h : Nat) :
    get_display_hour true h = h ∧
    get_display_hour false h = (if h % 12 = 0 then 12 else h % 12) ∧
    1 ≤ get_display_hour false h ∧ get_display_hour false h ≤ 12 ∧
    get_display_hour false h % 12 = h % 12 := by
  unfold get_display_hour
  simp only [if_true, Bool.false_eq_true, if_false]
  refine ⟨trivial, ?_, ?_, ?_, ?_⟩
  all_goals
    by_cases h0 : h % 12 = 0
    · simp [h0]
    · simp only [ne_eq, h0, not_false_eq_true, if_true, if_false]
      try omega

/-- The spec's examples of C4: `0 -> 12` and `13 -> 1` in 12-hour mode,
`13 -> 13` in 24-hour mode. -/
theorem get_display_hour_spec_witness :
    get_display_hour false 0 = 12 ∧ get_display_hour false 13 = 1 ∧
    get_display_hour true 13 = 13 :=
  ⟨(get_display_hour_spec 0).2.1, (get_display_hour_spec 13).2.1, (get_display_hour_spec 13).1⟩

/-- The two modes of `get_display_hour`, as equations. -/
theorem get_display_hour_eq (h : Nat) :
    get_display_hour true h = h ∧
    get_display_hour false h = (if h % 12 = 0 then 12 else h % 12) := by
  unfold get_display_hour
  by_cases h0 : h % 12 = 0 <;> simp [h0]

/-! ## Claims about `display_time` -/

/-- C1 (the code departs from the claim): a tick whose mask holds only the
minute flag still redraws the hour row.  With the SDK's flags
(`MINUTE_UNIT = 2`, `HOUR_UNIT = 4`): the watch starts at 13:05 in 24-hour
mode, so row 0 shows `1 3`; the clock style is switched to 12-hour; the tick
of 13:06 has mask `MINUTE_UNIT`, whose hour bit is clear, and yet row 0 now
shows `1` and an empty right slot, after four releases and three loads
instead of the two and two of the minute row. -/
theorem minute_tick_redraws_hour_row :
    ∃ s1 s2,
      display_time 4 2 true ⟨⟨13, 5⟩, 4 ||| 2⟩ State.initial = some s1 ∧
      display_time 4 2 false ⟨⟨13, 6⟩, 2⟩ s1 = some s2 ∧
      (2 : Nat) &&& 4 = 0 ∧
      (s1.image_slot_state 0 = 1 ∧ s1.image_slot_state 1 = 3) ∧
      (s2.image_slot_state 0 = 1 ∧ s2.image_slot_state 1 = EMPTY_SLOT) ∧
      s2.image_containers 1 ≠ s1.image_containers 1 ∧
      s2.released = s1.released + 4 ∧
      s2.acquired.length = s1.acquired.length + 3 :=
  ⟨_, _, rfl, rfl, by decide, by decide, by decide, by decide, by decide, by decide⟩

/-- C5: for every hour `h` in `[0,23]` and every change mask, the empty one
included, `display_time` returns with a white background exactly when
`h <= 10` and a black one exactly when `h >= 11`; and a row whose flag is in
the mask is displayed with the style flag `h <= 10`. -/
theorem display_time_style (HOUR_UNIT MINUTE_UNIT : Nat) (mode : Bool)
    (mask h : Nat) (m : Int) (s : State) (hh : h ≤ 23) :
    ∃ s', display_time HOUR_UNIT MINUTE_UNIT mode ⟨⟨(h : Int), m⟩, mask⟩ s = some s' ∧
      (s'.background_color = GColor.GColorWhite ↔ h ≤ 10) ∧
      (s'.background_color = GColor.GColorBlack ↔ 11 ≤ h) ∧
      (mask &&& HOUR_UNIT ≠ 0 →
        hour_row_shows (get_display_hour mode h) (decide (h ≤ 10)) s') ∧
      (mask &&& MINUTE_UNIT ≠ 0 →
        minute_row_shows (to_unsigned_short m) (decide (h ≤ 10)) s') := by
  obtain ⟨s', hr, hb, hsh, -, msh, -, -⟩ :=
    display_time_spec HOUR_UNIT MINUTE_UNIT mode ⟨⟨(h : Int), m⟩, mask⟩ s
  have hdec : decide ((h : Int) < 11) = decide (h ≤ 10) := by
    apply Bool.decide_congr
    omega
  simp only [to_unsigned_short_natCast h (by omega), hdec] at hsh msh
  refine ⟨s', hr, ?_, ?_, fun hc => hsh (logical_of_bitwise _ _ hc),
    fun hc => msh (logical_of_bitwise _ _ hc)⟩
  · rw [hb]
    by_cases h10 : h ≤ 10
    · have : (h : Int) < 11 := by omega
      simp [this, h10]
    · have : ¬ (h : Int) < 11 := by omega
      simp [this, h10]
  · rw [hb]
    by_cases h10 : h ≤ 10
    · have : (h : Int) < 11 := by omega
      have h11 : ¬ 11 ≤ h := by omega
      simp [this, h11]
    · have : ¬ (h : Int) < 11 := by omega
      have h11 : 11 ≤ h := by omega
      simp [this, h11]

/-- Witness of C5 at the boundary: with the empty mask, hour 10 gives a white
background and hour 11 a black one. -/
theorem display_time_style_witness :
    (∃ s', display_time 4 2 false ⟨⟨10, 59⟩, 0⟩ State.initial = some s' ∧
      s'.background_color = GColor.GColorWhite) ∧
    (∃ s', display_time 4 2 false ⟨⟨11, 0⟩, 0⟩ State.initial = some s' ∧
      s'.background_color = GColor.GColorBlack) := by
  constructor
  · obtain ⟨s', hr, hw, -⟩ := display_time_style 4 2 false 0 10 59 State.initial (by decide)
    exact ⟨s', hr, hw.mpr (by decide)⟩
  · obtain ⟨s', hr, -, hk, -⟩ := display_time_style 4 2 false 0 11 0 State.initial (by decide)
    exact ⟨s', hr, hk.mpr (by decide)⟩

/-- C6 as stated fails: at hour 9 (at most 10) the slots that `display_time`
loads are not composited with `GCompOpAssign`. -/
theorem am_slots_not_direct :
    ¬ (∀ s', display_time 4 2 false ⟨⟨9, 5⟩, 4 ||| 2⟩ State.initial = some s' →
        ∀ i, s'.image_slot_state i ≠ EMPTY_SLOT →
          (s'.image_containers i).compositing_mode = GCompOp.GCompOpAssign) := by
  intro hall
  have h0 := hall _ rfl 0 (by decide)
  revert h0
  decide

/-- C6, amended: for every hour `h` (in particular in `[0,23]`), the slots loaded by
`display_time` are composited with `GCompOpAssignInverted` when `h <= 10` and
with `GCompOpAssign` when `h >= 11`.  Stated on the final state: every
occupied slot of a row whose flag is in the mask has that mode, and so has
every occupied slot that the pass changed. -/
theorem display_time_compositing (HOUR_UNIT MINUTE_UNIT : Nat) (mode : Bool)
    (mask h : Nat) (m : Int) (s : State) :
    ∃ s', display_time HOUR_UNIT MINUTE_UNIT mode ⟨⟨(h : Int), m⟩, mask⟩ s = some s' ∧
      (mask &&& HOUR_UNIT ≠ 0 → ∀ i : Fin TOTAL_IMAGE_SLOTS, i.val < 2 →
        s'.image_slot_state i ≠ EMPTY_SLOT →
        (s'.image_containers i).compositing_mode =
          (if h ≤ 10 then GCompOp.GCompOpAssignInverted else GCompOp.GCompOpAssign)) ∧
      (mask &&& MINUTE_UNIT ≠ 0 → ∀ i : Fin TOTAL_IMAGE_SLOTS, 2 ≤ i.val →
        s'.image_slot_state i ≠ EMPTY_SLOT →
        (s'.image_containers i).compositing_mode =
          (if h ≤ 10 then GCompOp.GCompOpAssignInverted else GCompOp.GCompOpAssign)) ∧
      (∀ i : Fin TOTAL_IMAGE_SLOTS, s'.image_slot_state i ≠ EMPTY_SLOT →
        (s'.image_slot_state i ≠ s.image_slot_state i ∨
          s'.image_containers i ≠ s.image_containers i) →
        (s'.image_containers i).compositing_mode =
          (if h ≤ 10 then GCompOp.GCompOpAssignInverted else GCompOp.GCompOpAssign)) := by
  obtain ⟨s', hr, -, hsh, hun, msh, mun, -⟩ :=
    display_time_spec HOUR_UNIT MINUTE_UNIT mode ⟨⟨(h : Int), m⟩, mask⟩ s
  have hmode : compositing_mode_of (decide ((h : Int) < 11)) =
      (if h ≤ 10 then GCompOp.GCompOpAssignInverted else GCompOp.GCompOpAssign) := by
    unfold compositing_mode_of
    by_cases h10 : h ≤ 10
    · have : (h : Int) < 11 := by omega
      simp [this, h10]
    · have : ¬ (h : Int) < 11 := by omega
      simp [this, h10]
  simp only [] at hsh hun msh mun
  refine ⟨s', hr, ?_, ?_, ?_⟩
  · intro hc i hi ho
    rw [← hmode]
    exact hour_row_shows_mode _ _ s' (hsh (logical_of_bitwise _ _ hc)) i hi ho
  · intro hc i hi _
    rw [← hmode]
    exact minute_row_shows_mode _ _ s' (msh (logical_of_bitwise _ _ hc)) i hi
  · intro i ho hch
    rw [← hmode]
    by_cases hi : i.val < 2
    · by_cases hc : mask ≠ 0 ∧ HOUR_UNIT ≠ 0
      · exact hour_row_shows_mode _ _ s' (hsh hc) i hi ho
      · exfalso
        obtain ⟨a0, c0, a1, c1⟩ := hun hc
        have hv : i.val = 0 ∨ i.val = 1 := by omega
        rcases hv with hv | hv
        · have : i = 0 := Fin.ext hv
          subst this
          rcases hch with hch | hch
          · exact hch a0
          · exact hch c0
        · have : i = 1 := Fin.ext hv
          subst this
          rcases hch with hch | hch
          · exact hch a1
          · exact hch c1
    · by_cases hc : mask ≠ 0 ∧ MINUTE_UNIT ≠ 0
      · exact minute_row_shows_mode _ _ s' (msh hc) i (by omega)
      · exfalso
        obtain ⟨a2, c2, a3, c3⟩ := mun hc
        have hlt : i.val < 4 := i.isLt
        have hv : i.val = 2 ∨ i.val = 3 := by omega
        rcases hv with hv | hv
        · have : i = 2 := Fin.ext hv
          subst this
          rcases hch with hch | hch
          · exact hch a2
          · exact hch c2
        · have : i = 3 := Fin.ext hv
          subst this
          rcases hch with hch | hch
          · exact hch a3
          · exact hch c3

/-- Witness of amended C6: at 9:05 with both flags in the mask, from the
all-empty pool, slot 0 is loaded with `GCompOpAssignInverted`; at 13:05 it is
loaded with `GCompOpAssign`. -/
theorem display_time_compositing_witness :
    (∃ s', display_time 4 2 false ⟨⟨9, 5⟩, 4 ||| 2⟩ State.initial = some s' ∧
      (s'.image_containers 0).compositing_mode = GCompOp.GCompOpAssignInverted) ∧
    (∃ s', display_time 4 2 false ⟨⟨13, 5⟩, 4 ||| 2⟩ State.initial = some s' ∧
      (s'.image_containers 0).compositing_mode = GCompOp.GCompOpAssign) := by
  constructor
  · obtain ⟨s', hr, h0, -⟩ :=
      display_time_compositing 4 2 false (4 ||| 2) 9 5 State.initial
    refine ⟨s', hr, ?_⟩
    have hs : s' = _ := Option.some.inj (hr.symm.trans rfl)
    exact h0 (by decide) 0 (by decide) (by rw [hs]; decide)
  · obtain ⟨s', hr, h0, -⟩ :=
      display_time_compositing 4 2 false (4 ||| 2) 13 5 State.initial
    refine ⟨s', hr, ?_⟩
    have hs : s' = _ := Option.some.inj (hr.symm.trans rfl)
    exact h0 (by decide) 0 (by decide) (by rw [hs]; decide)

/-- C7: for every prior state, hour `h` in `[0,23]`, minute `m` in `[0,59]`
and clock mode, `display_time` with both the hour flag and the minute flag in
the mask returns, and afterwards, with `d = get_display_hour mode h`: slot 0
holds `d` and slot 1 is empty when `d < 10`; slot 0 holds `d / 10` and slot 1
holds `d % 10` otherwise; slot 2 holds `m / 10` and slot 3 holds `m % 10`;
and every occupied slot carries the style of the hour: for `h < 11` the
morning style, which is the white background and the compositing mode
`GCompOpAssignInverted`, and otherwise the evening style, which is the black
background and the compositing mode `GCompOpAssign`. -/
theorem display_time_both_rows (HOUR_UNIT MINUTE_UNIT : Nat) (mode : Bool)
    (mask h m : Nat) (s : State) (hh : h ≤ 23) (hm : m ≤ 59)
    (hhour : mask &&& HOUR_UNIT ≠ 0) (hmin : mask &&& MINUTE_UNIT ≠ 0) :
    ∃ s', display_time HOUR_UNIT MINUTE_UNIT mode ⟨⟨(h : Int), (m : Int)⟩, mask⟩ s = some s' ∧
      (get_display_hour mode h < 10 →
        s'.image_slot_state 0 = (get_display_hour mode h : Int) ∧
        s'.image_slot_state 1 = EMPTY_SLOT) ∧
      (10 ≤ get_display_hour mode h →
        s'.image_slot_state 0 = ((get_display_hour mode h / 10 : Nat) : Int) ∧
        s'.image_slot_state 1 = ((get_display_hour mode h % 10 : Nat) : Int)) ∧
      s'.image_slot_state 2 = ((m / 10 : Nat) : Int) ∧
      s'.image_slot_state 3 = ((m % 10 : Nat) : Int) ∧
      (∀ i, s'.image_slot_state i ≠ EMPTY_SLOT →
        (s'.image_containers i).compositing_mode =
          (if h < 11 then GCompOp.GCompOpAssignInverted else GCompOp.GCompOpAssign)) ∧
      s'.background_color = (if h < 11 then GColor.GColorWhite else GColor.GColorBlack) := by
  obtain ⟨s', hr, hb, hsh, -, msh, -, -⟩ :=
    display_time_spec HOUR_UNIT MINUTE_UNIT mode ⟨⟨(h : Int), (m : Int)⟩, mask⟩ s
  have hdec : decide ((h : Int) < 11) = decide (h < 11) := by
    apply Bool.decide_congr
    omega
  have hmode : compositing_mode_of (decide (h < 11)) =
      (if h < 11 then GCompOp.GCompOpAssignInverted else GCompOp.GCompOpAssign) := by
    unfold compositing_mode_of
    by_cases h11 : h < 11 <;> simp [h11]
  simp only [to_unsigned_short_natCast h (by omega), to_unsigned_short_natCast m (by omega),
    hdec] at hsh msh
  have hs := hsh (logical_of_bitwise _ _ hhour)
  have ms := msh (logical_of_bitwise _ _ hmin)
  have hd : get_display_hour mode h ≤ 23 := by
    rcases Bool.eq_false_or_eq_true mode with hmo | hmo
    · subst hmo; rw [(get_display_hour_eq h).1]; exact hh
    · subst hmo
      have := (get_display_hour_eq h).2
      split_ifs at this <;> omega
  have hdm : get_display_hour mode h % 100 = get_display_hour mode h :=
    Nat.mod_eq_of_lt (by omega)
  have hmm : m % 100 = m := Nat.mod_eq_of_lt (by omega)
  refine ⟨s', hr, ?_, ?_, ?_, ?_, ?_, ?_⟩
  · intro h9
    unfold hour_row_shows at hs
    rw [if_pos (by omega)] at hs
    refine ⟨?_, hs.2.2⟩
    rw [hs.1]
    simp only [ones_digit, hdm, Nat.mod_eq_of_lt h9]
  · intro h10
    unfold hour_row_shows at hs
    rw [if_neg (by omega)] at hs
    refine ⟨?_, ?_⟩
    · rw [hs.1]
      simp only [tens_digit, hdm]
    · rw [hs.2.2.1]
      simp only [ones_digit, hdm]
  · rw [ms.1]
    simp only [tens_digit, hmm]
  · rw [ms.2.2.1]
    simp only [ones_digit, hmm]
  · intro i ho
    rw [← hmode]
    by_cases hi : i.val < 2
    · exact hour_row_shows_mode _ _ s' hs i hi ho
    · exact minute_row_shows_mode _ _ s' ms i (by omega)
  · rw [hb]
    by_cases h11 : h < 11
    · have : (h : Int) < 11 := by omega
      simp [this, h11]
    · have : ¬ (h : Int) < 11 := by omega
      simp [this, h11]

/-- Witness of C7 at the spec's example: 9:05 in 12-hour mode with both flags
gives slot 0 = 9, slot 1 empty, slot 2 = 0, slot 3 = 5, all three loaded in
the morning style: compositing mode `GCompOpAssignInverted` on a white
background. -/
theorem display_time_both_rows_witness :
    ∃ s', display_time 4 2 false ⟨⟨9, 5⟩, 4 ||| 2⟩ State.initial = some s' ∧
      s'.image_slot_state 0 = 9 ∧ s'.image_slot_state 1 = EMPTY_SLOT ∧
      s'.image_slot_state 2 = 0 ∧ s'.image_slot_state 3 = 5 ∧
      (s'.image_containers 0).compositing_mode = GCompOp.GCompOpAssignInverted ∧
      (s'.image_containers 2).compositing_mode = GCompOp.GCompOpAssignInverted ∧
      (s'.image_containers 3).compositing_mode = GCompOp.GCompOpAssignInverted ∧
      s'.background_color = GColor.GColorWhite := by
  obtain ⟨s', hr, h1, -, h2, h3, hmode, hb⟩ :=
    display_time_both_rows 4 2 false (4 ||| 2) 9 5 State.initial (by decide) (by decide)
      (by decide) (by decide)
  have h0 : s'.image_slot_state 0 = 9 := (h1 (by decide)).1
  refine ⟨s', hr, h0, (h1 (by decide)).2, h2, h3, ?_, ?_, ?_, hb⟩
  · exact hmode 0 (by rw [h0]; decide)
  · exact hmode 2 (by rw [h2]; decide)
  · exact hmode 3 (by rw [h3]; decide)

/-- C8: for every state, time, clock mode and mask, running `display_time`
twice with the same event leaves the same slot table, the same containers
(so the same styles) and the same background as running it once. -/
theorem display_time_idempotent (HOUR_UNIT MINUTE_UNIT : Nat) (mode : Bool)
    (e : PebbleTickEvent) (s : State) :
    ∃ s1 s2, display_time HOUR_UNIT MINUTE_UNIT mode e s = some s1 ∧
      display_time HOUR_UNIT MINUTE_UNIT mode e s1 = some s2 ∧
      s2.image_slot_state = s1.image_slot_state ∧
      s2.image_containers = s1.image_containers ∧
      s2.background_color = s1.background_color := by
  obtain ⟨s1, r1, b1, hsh, -, msh, -, -⟩ :=
    display_time_spec HOUR_UNIT MINUTE_UNIT mode e s
  obtain ⟨s2, r2, b2, -, -, -, -, hab⟩ :=
    display_time_spec HOUR_UNIT MINUTE_UNIT mode e s1
  obtain ⟨e1, e2⟩ := hab hsh msh
  exact ⟨s1, s2, r1, r2, e1, e2, by rw [b2, b1]⟩

/-! ## Claims about `load_digit_image_into_slot` -/

/-- C10: for every state, `load_digit_image_into_slot` returns the state it
was given, resource counts included, whenever the slot number is outside
`[0,3]` (negative numbers included), or the digit is outside `[0,9]`
(negative numbers included), or the addressed slot is occupied. -/
theorem load_fail_silent (slot_number digit_value : Int) (isAm : Bool) (s : State)
    (h : slot_number < 0 ∨ 3 < slot_number ∨ digit_value < 0 ∨ 9 < digit_value ∨
      ∃ i : Fin TOTAL_IMAGE_SLOTS, (i.val : Int) = slot_number ∧
        s.image_slot_state i ≠ EMPTY_SLOT) :
    load_digit_image_into_slot slot_number digit_value isAm s = s := by
  rcases h with h | h | h | h | ⟨i, hi, ho⟩
  · unfold load_digit_image_into_slot
    rw [dif_pos (Or.inl h)]
  · unfold load_digit_image_into_slot
    rw [dif_pos (Or.inr (by unfold TOTAL_IMAGE_SLOTS; omega))]
  · unfold load_digit_image_into_slot
    by_cases hs : slot_number < 0 ∨ slot_number ≥ TOTAL_IMAGE_SLOTS
    · rw [dif_pos hs]
    · rw [dif_neg hs, dif_pos (Or.inl h)]
  · unfold load_digit_image_into_slot
    by_cases hs : slot_number < 0 ∨ slot_number ≥ TOTAL_IMAGE_SLOTS
    · rw [dif_pos hs]
    · rw [dif_neg hs, dif_pos (Or.inr h)]
  · exact load_of_occupied slot_number digit_value i hi.symm isAm s ho

/-- Witness of C10: on the all-empty pool, slot 4, slot -1, digit 10 and
digit -1 each leave the state as it was; so does a load over slot 0 once it
holds a 7. -/
theorem load_fail_silent_witness :
    load_digit_image_into_slot 4 5 true State.initial = State.initial ∧
    load_digit_image_into_slot (-1) 5 true State.initial = State.initial ∧
    load_digit_image_into_slot 0 10 true State.initial = State.initial ∧
    load_digit_image_into_slot 0 (-1) true State.initial = State.initial ∧
    load_digit_image_into_slot 0 5 false (load_digit_image_into_slot 0 7 true State.initial) =
      load_digit_image_into_slot 0 7 true State.initial :=
  ⟨load_fail_silent 4 5 true _ (Or.inr (Or.inl (by decide))),
   load_fail_silent (-1) 5 true _ (Or.inl (by decide)),
   load_fail_silent 0 10 true _ (Or.inr (Or.inr (Or.inr (Or.inl (by decide))))),
   load_fail_silent 0 (-1) true _ (Or.inr (Or.inr (Or.inl (by decide)))),
   load_fail_silent 0 5 false _ (Or.inr (Or.inr (Or.inr (Or.inr ⟨0, rfl, by decide⟩))))⟩

/-- C9: for every slot `i` in `[0,3]`, glyph `g` in `[0,9]` and style flag, a
load on a pool whose slot `i` is empty leaves slot `i` holding `g` in a
container that holds the image of `g`, is attached to the window at the
slot's quarter of the screen, and carries the style asked for, which is the
compositing mode `GCompOpAssignInverted` for the flag `true` and
`GCompOpAssign` for the flag `false`; the load acquires exactly the image
resource of `g` and releases nothing, and leaves every other slot, and the
background, as they were; a second load on slot `i`, with any digit and
style, returns the state unchanged, so nothing is acquired twice. -/
theorem load_into_empty_slot (i : Fin TOTAL_IMAGE_SLOTS) (g : Fin NUMBER_OF_IMAGES)
    (isAm : Bool) (s : State) (he : s.image_slot_state i = EMPTY_SLOT) :
    (load_digit_image_into_slot i.val g.val isAm s).image_slot_state i = (g.val : Int) ∧
    (load_digit_image_into_slot i.val g.val isAm s).image_containers i =
      { bmp := some (IMAGE_RESOURCE_IDS g)
        compositing_mode :=
          if isAm then GCompOp.GCompOpAssignInverted else GCompOp.GCompOpAssign
        origin_x := ((i.val : Int) % 2) * 72
        origin_y := ((i.val : Int) / 2) * 84
        has_parent := true } ∧
    ((load_digit_image_into_slot i.val g.val isAm s).image_containers i).compositing_mode =
      (if isAm then GCompOp.GCompOpAssignInverted else GCompOp.GCompOpAssign) ∧
    ((load_digit_image_into_slot i.val g.val isAm s).image_containers i).bmp =
      some (IMAGE_RESOURCE_IDS g) ∧
    (load_digit_image_into_slot i.val g.val isAm s).acquired =
      IMAGE_RESOURCE_IDS g :: s.acquired ∧
    (load_digit_image_into_slot i.val g.val isAm s).released = s.released ∧
    (∀ j, j ≠ i →
      (load_digit_image_into_slot i.val g.val isAm s).image_slot_state j =
        s.image_slot_state j ∧
      (load_digit_image_into_slot i.val g.val isAm s).image_containers j =
        s.image_containers j) ∧
    (load_digit_image_into_slot i.val g.val isAm s).background_color = s.background_color ∧
    (∀ (digit_value : Int) (isAm2 : Bool),
      load_digit_image_into_slot i.val digit_value isAm2
          (load_digit_image_into_slot i.val g.val isAm s) =
        load_digit_image_into_slot i.val g.val isAm s) := by
  have hocc : (load_digit_image_into_slot i.val g.val isAm s).image_slot_state i ≠
      EMPTY_SLOT := by
    rw [load_of_eq _ _ i g rfl rfl]
    simp only [he, ne_eq, not_true_eq_false, if_false, Function.update_same]
    unfold EMPTY_SLOT
    omega
  refine ⟨?_, ?_, ?_, ?_, ?_, ?_, ?_, ?_, ?_⟩
  · rw [load_of_eq _ _ i g rfl rfl]; simp [he]
  · rw [load_of_eq _ _ i g rfl rfl]; simp [he, compositing_mode_of]
  · rw [load_of_eq _ _ i g rfl rfl]; simp [he, compositing_mode_of]
  · rw [load_of_eq _ _ i g rfl rfl]; simp [he]
  · rw [load_of_eq _ _ i g rfl rfl]; simp [he]
  · rw [load_of_eq _ _ i g rfl rfl]; simp [he]
  · intro j hj
    rw [load_of_eq _ _ i g rfl rfl]
    simp [he, Function.update_noteq hj]
  · rw [load_of_eq _ _ i g rfl rfl]; simp [he]
  · intro digit_value isAm2
    exact load_of_occupied _ digit_value i rfl isAm2 _ hocc

/-- Witness of C9: loading glyph 7 into slot 2 of the all-empty pool with the
flag `true` gives the compositing mode `GCompOpAssignInverted`, with the flag
`false` the mode `GCompOpAssign`; the image of 7 is the one resource acquired,
and a second load on the slot changes nothing. -/
theorem load_into_empty_slot_witness :
    (load_digit_image_into_slot 2 7 true State.initial).image_slot_state 2 = 7 ∧
    ((load_digit_image_into_slot 2 7 true State.initial).image_containers 2).compositing_mode =
      GCompOp.GCompOpAssignInverted ∧
    ((load_digit_image_into_slot 2 7 false State.initial).image_containers 2).compositing_mode =
      GCompOp.GCompOpAssign ∧
    (load_digit_image_into_slot 2 7 true State.initial).image_containers 2 =
      { bmp := some ResourceId.RESOURCE_ID_IMAGE_NUM_7
        compositing_mode := GCompOp.GCompOpAssignInverted
        origin_x := 0
        origin_y := 84
        has_parent := true } ∧
    (load_digit_image_into_slot 2 7 true State.initial).acquired =
      [ResourceId.RESOURCE_ID_IMAGE_NUM_7] ∧
    load_digit_image_into_slot 2 3 false (load_digit_image_into_slot 2 7 true State.initial) =
      load_digit_image_into_slot 2 7 true State.initial :=
  ⟨(load_into_empty_slot 2 7 true State.initial rfl).1,
   (load_into_empty_slot 2 7 true State.initial rfl).2.2.1,
   (load_into_empty_slot 2 7 false State.initial rfl).2.2.1,
   (load_into_empty_slot 2 7 true State.initial rfl).2.1,
   (load_into_empty_slot 2 7 true State.initial rfl).2.2.2.2.1,
   (load_into_empty_slot 2 7 true State.initial rfl).2.2.2.2.2.2.2.2 3 false⟩

/-! ## Claims about `unload_digit_image_from_slot` -/

/-- C11: for every state and slot `i` in `[0,3]`,
`unload_digit_image_from_slot` returns; afterwards slot `i` is empty and every
other slot, the background and the loads so far are as before; on an empty
slot the whole state is unchanged and nothing is released; on an occupied slot
exactly one resource is released and the container is detached; and a second
unload of the slot changes nothing more. -/
theorem unload_always_succeeds (i : Fin TOTAL_IMAGE_SLOTS) (s : State) :
    ∃ s', unload_digit_image_from_slot ((i.val : Nat) : Int) s = some s' ∧
      s'.image_slot_state i = EMPTY_SLOT ∧
      (∀ j, j ≠ i →
        s'.image_slot_state j = s.image_slot_state j ∧
        s'.image_containers j = s.image_containers j) ∧
      s'.background_color = s.background_color ∧
      s'.acquired = s.acquired ∧
      (s.image_slot_state i = EMPTY_SLOT → s' = s) ∧
      (s.image_slot_state i ≠ EMPTY_SLOT →
        s'.released = s.released + 1 ∧
        (s'.image_containers i).bmp = none ∧
        (s'.image_containers i).has_parent = false) ∧
      unload_digit_image_from_slot ((i.val : Nat) : Int) s' = some s' := by
  refine ⟨_, unload_of_eq _ i rfl s, ?_, ?_, ?_, ?_, ?_, ?_, ?_⟩
  · by_cases h : s.image_slot_state i = EMPTY_SLOT <;> simp [h]
  · intro j hj
    by_cases h : s.image_slot_state i = EMPTY_SLOT <;> simp [h, Function.update_noteq hj]
  · by_cases h : s.image_slot_state i = EMPTY_SLOT <;> simp [h]
  · by_cases h : s.image_slot_state i = EMPTY_SLOT <;> simp [h]
  · intro h
    simp [h]
  · intro h
    simp [h]
  · rw [unload_of_eq _ i rfl]
    by_cases h : s.image_slot_state i = EMPTY_SLOT <;> simp [h]

/-- Witness of C11: on the pool that holds a 7 in slot 2, the unload of slot 2
releases one resource and empties the slot, and the unload of the empty slot
0 returns the state it was given. -/
theorem unload_always_succeeds_witness :
    (∃ s', unload_digit_image_from_slot 2
        (load_digit_image_into_slot 2 7 true State.initial) = some s' ∧
      s'.image_slot_state 2 = EMPTY_SLOT ∧ s'.released = 1) ∧
    unload_digit_image_from_slot 0 (load_digit_image_into_slot 2 7 true State.initial) =
      some (load_digit_image_into_slot 2 7 true State.initial) := by
  constructor
  · obtain ⟨s', hr, he, -, -, -, -, hrel, -⟩ :=
      unload_always_succeeds 2 (load_digit_image_into_slot 2 7 true State.initial)
    exact ⟨s', hr, he, (hrel (by decide)).1⟩
  · obtain ⟨s', hr, -, -, -, -, hsame, -⟩ :=
      unload_always_succeeds 0 (load_digit_image_into_slot 2 7 true State.initial)
    rw [hsame (by decide)] at hr
    exact hr

/-! ## The pool invariant -/

/-- The number of occupied slots, slot by slot. -/
theorem occupied_eq_sum (s : State) :
    s.occupied =
      (if s.image_slot_state 0 ≠ EMPTY_SLOT then 1 else 0) +
      (if s.image_slot_state 1 ≠ EMPTY_SLOT then 1 else 0) +
      (if s.image_slot_state 2 ≠ EMPTY_SLOT then 1 else 0) +
      (if s.image_slot_state 3 ≠ EMPTY_SLOT then 1 else 0) := by
  unfold State.occupied
  rw [Finset.card_filter, Fin.sum_univ_four]

/-- At most four slots are occupied. -/
theorem occupied_le (s : State) : s.occupied ≤ 4 := by
  rw [occupied_eq_sum]
  split_ifs <;> omega

/-- The four slot indices. -/
theorem fin4_cases (i : Fin TOTAL_IMAGE_SLOTS) : i = 0 ∨ i = 1 ∨ i = 2 ∨ i = 3 := by
  have hlt : i.val < 4 := i.isLt
  have hv : i.val = 0 ∨ i.val = 1 ∨ i.val = 2 ∨ i.val = 3 := by omega
  rcases hv with hv | hv | hv | hv
  · exact Or.inl (Fin.ext hv)
  · exact Or.inr (Or.inl (Fin.ext hv))
  · exact Or.inr (Or.inr (Or.inl (Fin.ext hv)))
  · exact Or.inr (Or.inr (Or.inr (Fin.ext hv)))

/-- An updated table, read at any index. -/
theorem update_at_four {α : Type} (f : Fin TOTAL_IMAGE_SLOTS → α) (i : Fin TOTAL_IMAGE_SLOTS)
    (x : α) (j : Fin TOTAL_IMAGE_SLOTS) :
    Function.update f i x j = if j = i then x else f j := by
  by_cases h : j = i
  · subst h; simp
  · simp [h]

/-- Filling an empty slot adds one to the number of occupied slots. -/
theorem occupied_fill (s t : State) (i : Fin TOTAL_IMAGE_SLOTS) (d : Int)
    (ht : t.image_slot_state = Function.update s.image_slot_state i d)
    (he : s.image_slot_state i = EMPTY_SLOT) (hd : d ≠ EMPTY_SLOT) :
    t.occupied = s.occupied + 1 := by
  have h01 : (0 : Fin TOTAL_IMAGE_SLOTS) ≠ 1 := by decide
  have h02 : (0 : Fin TOTAL_IMAGE_SLOTS) ≠ 2 := by decide
  have h03 : (0 : Fin TOTAL_IMAGE_SLOTS) ≠ 3 := by decide
  have h12 : (1 : Fin TOTAL_IMAGE_SLOTS) ≠ 2 := by decide
  have h13 : (1 : Fin TOTAL_IMAGE_SLOTS) ≠ 3 := by decide
  have h23 : (2 : Fin TOTAL_IMAGE_SLOTS) ≠ 3 := by decide
  rw [occupied_eq_sum, occupied_eq_sum, ht]
  simp only [update_at_four]
  rcases fin4_cases i with rfl | rfl | rfl | rfl <;>
    simp only [he, hd, h01, h02, h03, h12, h13, h23, h01.symm, h02.symm, h03.symm, h12.symm,
      h13.symm, h23.symm, if_true, if_false, ne_eq, not_true_eq_false, not_false_eq_true] <;>
    omega

/-- Emptying an occupied slot takes one from the number of occupied slots. -/
theorem occupied_clear (s t : State) (i : Fin TOTAL_IMAGE_SLOTS)
    (ht : t.image_slot_state = Function.update s.image_slot_state i EMPTY_SLOT)
    (ho : s.image_slot_state i ≠ EMPTY_SLOT) :
    t.occupied + 1 = s.occupied := by
  have h01 : (0 : Fin TOTAL_IMAGE_SLOTS) ≠ 1 := by decide
  have h02 : (0 : Fin TOTAL_IMAGE_SLOTS) ≠ 2 := by decide
  have h03 : (0 : Fin TOTAL_IMAGE_SLOTS) ≠ 3 := by decide
  have h12 : (1 : Fin TOTAL_IMAGE_SLOTS) ≠ 2 := by decide
  have h13 : (1 : Fin TOTAL_IMAGE_SLOTS) ≠ 3 := by decide
  have h23 : (2 : Fin TOTAL_IMAGE_SLOTS) ≠ 3 := by decide
  rw [occupied_eq_sum, occupied_eq_sum, ht]
  simp only [update_at_four]
  rcases fin4_cases i with rfl | rfl | rfl | rfl <;>
    simp only [ho, h01, h02, h03, h12, h13, h23, h01.symm, h02.symm, h03.symm, h12.symm,
      h13.symm, h23.symm, if_true, if_false, ne_eq, not_true_eq_false, not_false_eq_true] <;>
    omega

/-- A load either returns the state it was given or fills an empty slot with
a digit of the table. -/
theorem load_cases (n g : Int) (isAm : Bool) (s : State) :
    load_digit_image_into_slot n g isAm s = s ∨
    ∃ (i : Fin TOTAL_IMAGE_SLOTS) (d : Fin NUMBER_OF_IMAGES),
      n = (i.val : Int) ∧ g = (d.val : Int) ∧ s.image_slot_state i = EMPTY_SLOT ∧
      load_digit_image_into_slot n g isAm s =
        { s with
          image_slot_state := Function.update s.image_slot_state i (d.val : Int)
          acquired := IMAGE_RESOURCE_IDS d :: s.acquired
          image_containers := Function.update s.image_containers i
            (loaded_container i d isAm) } := by
  by_cases hs : n < 0 ∨ n ≥ TOTAL_IMAGE_SLOTS
  · left
    unfold load_digit_image_into_slot
    rw [dif_pos hs]
  · by_cases hd : g < 0 ∨ g > 9
    · left
      unfold load_digit_image_into_slot
      rw [dif_neg hs, dif_pos hd]
    · have hn4 : 0 ≤ n ∧ n < 4 := by
        have hs2 : ¬ (n < 0 ∨ n ≥ 4) := hs
        omega
      obtain ⟨i, hn⟩ : ∃ i : Fin TOTAL_IMAGE_SLOTS, n = (i.val : Int) :=
        ⟨⟨n.toNat, by show n.toNat < 4; omega⟩, by show n = ((n.toNat : Nat) : Int); omega⟩
      obtain ⟨d, hg⟩ : ∃ d : Fin NUMBER_OF_IMAGES, g = (d.val : Int) :=
        ⟨⟨g.toNat, by show g.toNat < 10; omega⟩, by show g = ((g.toNat : Nat) : Int); omega⟩
      by_cases he : s.image_slot_state i = EMPTY_SLOT
      · right
        refine ⟨i, d, hn, hg, he, ?_⟩
        rw [load_of_eq n g i d hn hg, if_neg (not_not.mpr he)]
        rfl
      · left
        exact load_of_occupied n g i hn isAm s he

/-- A load keeps the pool invariant, whatever its arguments. -/
theorem pool_invariant_load (n g : Int) (isAm : Bool) (s : State)
    (h : pool_invariant s) : pool_invariant (load_digit_image_into_slot n g isAm s) := by
  rcases load_cases n g isAm s with hsame | ⟨i, d, -, -, he, heq⟩
  · rw [hsame]; exact h
  · rw [heq]
    obtain ⟨h1, h2, h3⟩ := h
    have hd0 : (0 : Int) ≤ (d.val : Int) := Int.natCast_nonneg _
    have hd9 : (d.val : Int) ≤ 9 := by
      have hlt : d.val < 10 := d.isLt
      omega
    have hdne : (d.val : Int) ≠ EMPTY_SLOT := by
      unfold EMPTY_SLOT; omega
    refine ⟨?_, ?_, ?_⟩
    · intro j
      by_cases hj : j = i
      · subst hj
        right
        simp only [Function.update_same]
        exact ⟨hd0, hd9⟩
      · simp only [Function.update_noteq hj]
        exact h1 j
    · intro j
      by_cases hj : j = i
      · subst hj
        simp only [Function.update_same]
        simp [loaded_container, hdne]
      · simp only [Function.update_noteq hj]
        exact h2 j
    · have hocc := occupied_fill s
        { s with
          image_slot_state := Function.update s.image_slot_state i (d.val : Int)
          acquired := IMAGE_RESOURCE_IDS d :: s.acquired
          image_containers := Function.update s.image_containers i
            (loaded_container i d isAm) } i (d.val : Int) rfl he hdne
      rw [hocc]
      unfold State.live at h3 ⊢
      simp only [List.length_cons]
      push_cast
      omega

/-- An unload of a slot inside the array returns and keeps the pool
invariant. -/
theorem pool_invariant_unload (n : Int) (i : Fin TOTAL_IMAGE_SLOTS) (hn : n = (i.val : Int))
    (s : State) (h : pool_invariant s) :
    ∃ s', unload_digit_image_from_slot n s = some s' ∧ pool_invariant s' := by
  refine ⟨_, unload_of_eq n i hn s, ?_⟩
  by_cases ho : s.image_slot_state i = EMPTY_SLOT
  · simp only [ho, ne_eq, not_true_eq_false, if_false]
    exact h
  · simp only [ho, ne_eq, not_false_eq_true, if_true]
    obtain ⟨h1, h2, h3⟩ := h
    refine ⟨?_, ?_, ?_⟩
    · intro j
      by_cases hj : j = i
      · subst hj
        left
        simp only [Function.update_same]
      · simp only [Function.update_noteq hj]
        exact h1 j
    · intro j
      by_cases hj : j = i
      · subst hj
        simp only [Function.update_same]
        simp
      · simp only [Function.update_noteq hj]
        exact h2 j
    · have key : ∀ t : State,
          t.image_slot_state = Function.update s.image_slot_state i EMPTY_SLOT →
          t.released = s.released + 1 → t.acquired = s.acquired →
          t.live = (t.occupied : Int) := by
        intro t ht hr ha
        have hocc := occupied_clear s t i ht ho
        unfold State.live at h3 ⊢
        rw [hr, ha]
        push_cast
        omega
      exact key _ rfl rfl rfl

/-- On either row `display_value` returns and keeps the pool invariant. -/
theorem pool_invariant_display_value (v r : Nat) (hr : r < 2) (isAm : Bool) (s : State)
    (h : pool_invariant s) :
    ∃ s', display_value v r isAm s = some s' ∧ pool_invariant s' := by
  unfold display_value
  simp only []
  obtain ⟨s1, u1, i1⟩ := pool_invariant_unload ((r * 2 : Nat) : Int) ⟨r * 2, by show r * 2 < 4; omega⟩ rfl s h
  rw [u1, Option.some_bind]
  have i2 : pool_invariant
      (if v % 100 < 10 ∧ r = 0 then
        load_digit_image_into_slot ((r * 2 : Nat) : Int) ((v % 100 % 10 : Nat) : Int) isAm s1
      else
        load_digit_image_into_slot ((r * 2 : Nat) : Int) ((v % 100 / 10 : Nat) : Int) isAm s1) := by
    split_ifs
    · exact pool_invariant_load _ _ _ _ i1
    · exact pool_invariant_load _ _ _ _ i1
  obtain ⟨s3, u3, i3⟩ :=
    pool_invariant_unload ((r * 2 + 1 : Nat) : Int) ⟨r * 2 + 1, by show r * 2 + 1 < 4; omega⟩ rfl _ i2
  rw [u3, Option.some_bind]
  by_cases hc : v % 100 < 10 ∧ r = 0
  · rw [if_neg (not_not.mpr hc)]
    exact pool_invariant_unload ((r * 2 + 1 : Nat) : Int) ⟨r * 2 + 1, by show r * 2 + 1 < 4; omega⟩ rfl _ i3
  · rw [if_pos hc]
    exact ⟨_, rfl, pool_invariant_load _ _ _ _ i3⟩

/-- The pool invariant does not read the background. -/
theorem pool_invariant_background (c : GColor) (s : State) (h : pool_invariant s) :
    pool_invariant { s with background_color := c } := h

/-- A guarded `display_value`, as in the two steps of `display_time`, returns
and keeps the pool invariant. -/
theorem pool_invariant_step (c : Prop) [Decidable c] (v r : Nat) (hr : r < 2)
    (isAm : Bool) (s : State) (h : pool_invariant s) :
    ∃ s', (if c then display_value v r isAm s else some s) = some s' ∧
      pool_invariant s' := by
  by_cases hc : c
  · rw [if_pos hc]
    exact pool_invariant_display_value v r hr isAm s h
  · rw [if_neg hc]
    exact ⟨s, rfl, h⟩

/-- The function `display_time` returns and keeps the pool invariant. -/
theorem pool_invariant_display_time (HOUR_UNIT MINUTE_UNIT : Nat) (mode : Bool)
    (e : PebbleTickEvent) (s : State) (h : pool_invariant s) :
    ∃ s', display_time HOUR_UNIT MINUTE_UNIT mode e s = some s' ∧ pool_invariant s' := by
  rw [display_time_eq]
  obtain ⟨s1, r1, i1⟩ := pool_invariant_step (e.units_changed ≠ 0 ∧ HOUR_UNIT ≠ 0)
    (get_display_hour mode (to_unsigned_short e.tick_time.tm_hour)) 0 (by decide)
    (decide (e.tick_time.tm_hour < 11)) _
    (pool_invariant_background
      (if e.tick_time.tm_hour < 11 then GColor.GColorWhite else GColor.GColorBlack) s h)
  rw [r1, Option.some_bind]
  exact pool_invariant_step (e.units_changed ≠ 0 ∧ MINUTE_UNIT ≠ 0)
    (to_unsigned_short e.tick_time.tm_min) 1 (by decide) (decide (e.tick_time.tm_hour < 11)) s1 i1

/-- Every call returns and keeps the pool invariant. -/
theorem pool_invariant_call (HOUR_UNIT MINUTE_UNIT : Nat) (c : Call) (s : State)
    (h : pool_invariant s) :
    ∃ s', c.run HOUR_UNIT MINUTE_UNIT s = some s' ∧ pool_invariant s' := by
  cases c with
  | load slot_number digit_value isAm =>
      exact ⟨_, rfl, pool_invariant_load _ _ _ _ h⟩
  | unload slot_number =>
      exact pool_invariant_unload _ slot_number rfl s h
  | display_value value row_number isAm =>
      exact pool_invariant_display_value value row_number.val row_number.isLt isAm s h
  | display_time mode e =>
      exact pool_invariant_display_time HOUR_UNIT MINUTE_UNIT mode e s h

/-- Every sequence of calls returns and keeps the pool invariant. -/
theorem pool_invariant_calls (HOUR_UNIT MINUTE_UNIT : Nat) (cs : List Call) :
    ∀ s, pool_invariant s →
      ∃ s', run_calls HOUR_UNIT MINUTE_UNIT cs s = some s' ∧ pool_invariant s' := by
  induction cs with
  | nil =>
      intro s h
      exact ⟨s, rfl, h⟩
  | cons c cs ih =>
      intro s h
      obtain ⟨s1, r1, i1⟩ := pool_invariant_call HOUR_UNIT MINUTE_UNIT c s h
      obtain ⟨s2, r2, i2⟩ := ih s1 i1
      refine ⟨s2, ?_, i2⟩
      show (c.run HOUR_UNIT MINUTE_UNIT s).bind (run_calls HOUR_UNIT MINUTE_UNIT cs) = some s2
      rw [r1, Option.some_bind, r2]

/-- The all-empty pool of program start satisfies the pool invariant. -/
theorem pool_invariant_initial : pool_invariant State.initial := by
  refine ⟨fun _ => Or.inl rfl, fun _ => ?_, ?_⟩
  · simp [State.initial]
  · rw [occupied_eq_sum]
    simp [State.live, State.initial]

/-- C12: whatever sequence of loads (with any arguments), unloads (of a slot
in `[0,3]`), `display_value` calls (on row 0 or 1) and `display_time` calls is
run from the all-empty pool, every call returns, and in the state reached:
each slot is empty or holds a digit in `[0,9]`; a container holds an image
resource exactly when its slot is occupied; loads minus releases equal the
number of occupied slots; so between zero and four resources are held. -/
theorem reachable_pool_invariant (HOUR_UNIT MINUTE_UNIT : Nat) (cs : List Call) :
    ∃ s, run_calls HOUR_UNIT MINUTE_UNIT cs State.initial = some s ∧
      (∀ i, s.image_slot_state i = EMPTY_SLOT ∨
        (0 ≤ s.image_slot_state i ∧ s.image_slot_state i ≤ 9)) ∧
      (∀ i, (s.image_containers i).bmp ≠ none ↔ s.image_slot_state i ≠ EMPTY_SLOT) ∧
      (s.acquired.length : Int) - (s.released : Int) = (s.occupied : Int) ∧
      0 ≤ s.live ∧ s.live ≤ 4 := by
  obtain ⟨s, hr, h1, h2, h3⟩ :=
    pool_invariant_calls HOUR_UNIT MINUTE_UNIT cs State.initial pool_invariant_initial
  have hle := occupied_le s
  refine ⟨s, hr, h1, h2, h3, ?_, ?_⟩
  · rw [h3]; omega
  · rw [h3]; omega

/-- An instance of C12: after a start-up render at 23:59, a load into the
occupied slot 0, an unload of slot 3 and a `display_value` of 5 on row 0, two
resources are held, for the two occupied slots 0 and 2. -/
theorem reachable_pool_invariant_witness :
    ∃ s, run_calls 4 2
        [Call.display_time true ⟨⟨23, 59⟩, 4 ||| 2⟩, Call.load 0 7 true, Call.unload 3,
          Call.display_value 5 0 false] State.initial = some s ∧
      s.live = 2 ∧ s.occupied = 2 := by
  obtain ⟨s, hr, -, -, -, -, -⟩ := reachable_pool_invariant 4 2
    [Call.display_time true ⟨⟨23, 59⟩, 4 ||| 2⟩, Call.load 0 7 true, Call.unload 3,
      Call.display_value 5 0 false]
  have hs : s = _ := Option.some.inj (hr.symm.trans rfl)
  refine ⟨s, hr, ?_, ?_⟩
  · rw [hs]; decide
  · rw [hs]; decide

/-! ## Start-up and teardown -/

/-- A bitwise or with a non-zero left operand is non-zero. -/
theorem or_ne_zero_left (a b : Nat) (ha : a ≠ 0) : a ||| b ≠ 0 := by
  obtain ⟨i, hi⟩ := Nat.ne_zero_implies_bit_true ha
  intro h
  have hb := Nat.testBit_or a b i
  rw [h] at hb
  simp [hi] at hb

/-- The loop of `handle_deinit`, unrolled. -/
theorem handle_deinit_eq (s : State) :
    handle_deinit s =
      (unload_digit_image_from_slot 0 s).bind fun s1 =>
      (unload_digit_image_from_slot 1 s1).bind fun s2 =>
      (unload_digit_image_from_slot 2 s2).bind fun s3 =>
      unload_digit_image_from_slot 3 s3 := by
  unfold handle_deinit
  simp [List.range, List.range.loop, List.foldlM]

/-- Unload on a slot inside the array, counters included: the slot ends empty,
one release is counted when it was occupied, and the loads so far are as
before. -/
theorem unload_counts (n : Int) (i : Fin TOTAL_IMAGE_SLOTS) (hn : n = (i.val : Int))
    (s : State) :
    ∃ s1, unload_digit_image_from_slot n s = some s1 ∧
      s1.image_slot_state = Function.update s.image_slot_state i EMPTY_SLOT ∧
      s1.image_containers =
        Function.update s.image_containers i
          (if s.image_slot_state i ≠ EMPTY_SLOT then unloaded_container (s.image_containers i)
           else s.image_containers i) ∧
      s1.acquired = s.acquired ∧
      s1.released = s.released + (if s.image_slot_state i ≠ EMPTY_SLOT then 1 else 0) := by
  obtain ⟨s1, hr, hs, hc, -⟩ := unload_spec n i hn s
  refine ⟨s1, hr, hs, hc, ?_, ?_⟩
  · have hs1 := unload_of_eq n i hn s
    rw [hr] at hs1
    rw [Option.some.inj hs1]
    by_cases h : s.image_slot_state i = EMPTY_SLOT <;> simp [h]
  · have hs1 := unload_of_eq n i hn s
    rw [hr] at hs1
    rw [Option.some.inj hs1]
    by_cases h : s.image_slot_state i = EMPTY_SLOT <;> simp [h]

/-- C13 as stated fails: the render pass with both flags for 9:05 in 12-hour
mode, on the all-empty pool, leaves slot 1 empty. -/
theorem initial_render_leaves_slot_one_empty :
    ¬ (∀ s', display_time 4 2 false ⟨⟨9, 5⟩, 4 ||| 2⟩ State.initial = some s' →
        ∀ i, s'.image_slot_state i ≠ EMPTY_SLOT) := by
  intro hall
  have h1 := hall _ rfl 1
  revert h1
  decide

/-- C13, amended: for every start time (hour in `[0,23]`, any minute, so every
minute in `[0,59]`) and either clock mode, the render pass that start-up asks
for, `display_time` with the mask `HOUR_UNIT | MINUTE_UNIT` on the all-empty
pool, returns and populates slots 0, 2 and 3; it populates slot 1 exactly when
the displayed hour `get_display_hour mode h` is at least ten, and leaves it
empty otherwise; every slot it populates holds an image resource and is
attached to the window.  The two SDK flags are non-zero.  How `handle_init`
(lines 191-195) obtains the time it hands to the pass is left out. -/
theorem initial_render_populates (HOUR_UNIT MINUTE_UNIT : Nat) (mode : Bool) (h : Nat)
    (m : Int) (hH : HOUR_UNIT ≠ 0) (hM : MINUTE_UNIT ≠ 0) (hh : h ≤ 23) :
    ∃ s', display_time HOUR_UNIT MINUTE_UNIT mode
        ⟨⟨(h : Int), m⟩, HOUR_UNIT ||| MINUTE_UNIT⟩ State.initial = some s' ∧
      s'.image_slot_state 0 ≠ EMPTY_SLOT ∧
      (s'.image_slot_state 1 ≠ EMPTY_SLOT ↔ 10 ≤ get_display_hour mode h) ∧
      s'.image_slot_state 2 ≠ EMPTY_SLOT ∧
      s'.image_slot_state 3 ≠ EMPTY_SLOT ∧
      (∀ i, s'.image_slot_state i ≠ EMPTY_SLOT →
        (s'.image_containers i).bmp ≠ none ∧ (s'.image_containers i).has_parent = true) := by
  obtain ⟨s', hr, -, hsh, -, msh, -, -⟩ :=
    display_time_spec HOUR_UNIT MINUTE_UNIT mode
      ⟨⟨(h : Int), m⟩, HOUR_UNIT ||| MINUTE_UNIT⟩ State.initial
  simp only [to_unsigned_short_natCast h (by omega)] at hsh msh
  have hs := hsh ⟨or_ne_zero_left _ _ hH, hH⟩
  have ms := msh ⟨or_ne_zero_left _ _ hH, hM⟩
  have hd : get_display_hour mode h ≤ 23 := by
    rcases Bool.eq_false_or_eq_true mode with hmo | hmo
    · subst hmo; rw [(get_display_hour_eq h).1]; exact hh
    · subst hmo
      have := (get_display_hour_eq h).2
      split_ifs at this <;> omega
  have hne : ∀ d : Fin NUMBER_OF_IMAGES, ((d.val : Nat) : Int) ≠ EMPTY_SLOT := by
    intro d
    unfold EMPTY_SLOT
    omega
  refine ⟨s', hr, ?_, ?_, ?_, ?_, ?_⟩
  · unfold hour_row_shows at hs
    split_ifs at hs
    · rw [hs.1]; exact hne _
    · rw [hs.1]; exact hne _
  · unfold hour_row_shows at hs
    split_ifs at hs with hlt
    · have : ¬ 10 ≤ get_display_hour mode h := by omega
      simp [hs.2.2, this]
    · have : 10 ≤ get_display_hour mode h := by omega
      rw [hs.2.2.1]
      simp [hne, this]
  · rw [ms.1]; exact hne _
  · rw [ms.2.2.1]; exact hne _
  · intro i ho
    rcases fin4_cases i with rfl | rfl | rfl | rfl
    · unfold hour_row_shows at hs
      split_ifs at hs
      · rw [hs.2.1]; simp [loaded_container]
      · rw [hs.2.1]; simp [loaded_container]
    · unfold hour_row_shows at hs
      split_ifs at hs
      · exact absurd hs.2.2 ho
      · rw [hs.2.2.2]; simp [loaded_container]
    · rw [ms.2.1]; simp [loaded_container]
    · rw [ms.2.2.2]; simp [loaded_container]

/-- Witness of amended C13 with the SDK's flags: the pass for 13:05 in 24-hour
mode populates all four slots, the pass for 13:05 in 12-hour mode leaves slot
1 empty. -/
theorem initial_render_populates_witness :
    (∃ s', display_time 4 2 true ⟨⟨13, 5⟩, 4 ||| 2⟩ State.initial = some s' ∧
      s'.image_slot_state 0 ≠ EMPTY_SLOT ∧ s'.image_slot_state 1 ≠ EMPTY_SLOT ∧
      s'.image_slot_state 2 ≠ EMPTY_SLOT ∧ s'.image_slot_state 3 ≠ EMPTY_SLOT) ∧
    (∃ s', display_time 4 2 false ⟨⟨13, 5⟩, 4 ||| 2⟩ State.initial = some s' ∧
      s'.image_slot_state 0 ≠ EMPTY_SLOT ∧ s'.image_slot_state 1 = EMPTY_SLOT ∧
      s'.image_slot_state 2 ≠ EMPTY_SLOT ∧ s'.image_slot_state 3 ≠ EMPTY_SLOT) := by
  constructor
  · obtain ⟨s', hr, h0, h1, h2, h3, -⟩ :=
      initial_render_populates 4 2 true 13 5 (by decide) (by decide) (by decide)
    exact ⟨s', hr, h0, h1.mpr (by decide), h2, h3⟩
  · obtain ⟨s', hr, h0, h1, h2, h3, -⟩ :=
      initial_render_populates 4 2 false 13 5 (by decide) (by decide) (by decide)
    exact ⟨s', hr, h0, not_not.mp (fun hne => absurd (h1.mp hne) (by decide)), h2, h3⟩

/-- C14: for every state `handle_deinit` returns, and afterwards all four
slots are empty; one release has been counted for each slot that was
occupied, and the container of each such slot is detached and holds no
resource; and from a state that satisfies the pool invariant (resources held
exactly by the occupied slots), no resource is held at the end. -/
theorem handle_deinit_releases_all (s : State) :
    ∃ s', handle_deinit s = some s' ∧
      (∀ i, s'.image_slot_state i = EMPTY_SLOT) ∧
      s'.acquired = s.acquired ∧
      s'.released = s.released + s.occupied ∧
      (∀ i, s.image_slot_state i ≠ EMPTY_SLOT →
        (s'.image_containers i).bmp = none ∧ (s'.image_containers i).has_parent = false) ∧
      (pool_invariant s →
        s'.live = 0 ∧ s'.occupied = 0 ∧ ∀ i, (s'.image_containers i).bmp = none) := by
  have h01 : (0 : Fin TOTAL_IMAGE_SLOTS) ≠ 1 := by decide
  have h02 : (0 : Fin TOTAL_IMAGE_SLOTS) ≠ 2 := by decide
  have h03 : (0 : Fin TOTAL_IMAGE_SLOTS) ≠ 3 := by decide
  have h12 : (1 : Fin TOTAL_IMAGE_SLOTS) ≠ 2 := by decide
  have h13 : (1 : Fin TOTAL_IMAGE_SLOTS) ≠ 3 := by decide
  have h23 : (2 : Fin TOTAL_IMAGE_SLOTS) ≠ 3 := by decide
  rw [handle_deinit_eq]
  obtain ⟨s1, r1, a1, c1, q1, e1⟩ := unload_counts 0 0 rfl s
  obtain ⟨s2, r2, a2, c2, q2, e2⟩ := unload_counts 1 1 rfl s1
  obtain ⟨s3, r3, a3, c3, q3, e3⟩ := unload_counts 2 2 rfl s2
  obtain ⟨s4, r4, a4, c4, q4, e4⟩ := unload_counts 3 3 rfl s3
  rw [r1, Option.some_bind, r2, Option.some_bind, r3, Option.some_bind, r4]
  have hslots : ∀ i, s4.image_slot_state i = EMPTY_SLOT := by
    intro i
    rw [a4, a3, a2, a1]
    simp only [update_at_four]
    rcases fin4_cases i with rfl | rfl | rfl | rfl <;>
      simp only [h01, h02, h03, h12, h13, h23, h01.symm, h02.symm, h03.symm, h12.symm,
        h13.symm, h23.symm, if_true, if_false]
  have hs1 : s1.image_slot_state 1 = s.image_slot_state 1 := by
    rw [a1, Function.update_noteq h01.symm]
  have hs2 : s2.image_slot_state 2 = s.image_slot_state 2 := by
    rw [a2, Function.update_noteq h12.symm, a1, Function.update_noteq h02.symm]
  have hs3 : s3.image_slot_state 3 = s.image_slot_state 3 := by
    rw [a3, Function.update_noteq h23.symm, a2, Function.update_noteq h13.symm, a1,
      Function.update_noteq h03.symm]
  have hc1 : s1.image_containers 1 = s.image_containers 1 := by
    rw [c1, Function.update_noteq h01.symm]
  have hc2 : s2.image_containers 2 = s.image_containers 2 := by
    rw [c2, Function.update_noteq h12.symm, c1, Function.update_noteq h02.symm]
  have hc3 : s3.image_containers 3 = s.image_containers 3 := by
    rw [c3, Function.update_noteq h23.symm, c2, Function.update_noteq h13.symm, c1,
      Function.update_noteq h03.symm]
  have hconts : ∀ i, s4.image_containers i =
      if s.image_slot_state i ≠ EMPTY_SLOT then unloaded_container (s.image_containers i)
      else s.image_containers i := by
    intro i
    rw [c4, c3, c2, c1, hs1, hs2, hs3]
    simp only [update_at_four]
    rcases fin4_cases i with rfl | rfl | rfl | rfl <;>
      simp only [h01, h02, h03, h12, h13, h23, h01.symm, h02.symm, h03.symm, h12.symm,
        h13.symm, h23.symm, if_true, if_false, hc1, hc2, hc3]
  have hacq : s4.acquired = s.acquired := by rw [q4, q3, q2, q1]
  have hrel : s4.released = s.released + s.occupied := by
    rw [e4, e3, e2, e1, hs1, hs2, hs3, occupied_eq_sum]
    omega
  have hocc : s4.occupied = 0 := by
    rw [occupied_eq_sum]
    simp [hslots]
  refine ⟨s4, rfl, hslots, hacq, hrel, ?_, ?_⟩
  · intro i ho
    rw [hconts i, if_pos ho]
    exact ⟨rfl, rfl⟩
  · rintro ⟨-, hbmp, hlive⟩
    refine ⟨?_, hocc, ?_⟩
    · unfold State.live at hlive ⊢
      rw [hacq, hrel]
      push_cast
      omega
    · intro i
      rw [hconts i]
      by_cases ho : s.image_slot_state i = EMPTY_SLOT
      · rw [if_neg (not_not.mpr ho)]
        by_contra hne
        exact ((hbmp i).mp hne) ho
      · rw [if_pos ho]
        rfl

/-- Witness of C14: teardown after the render of 13:05 in 24-hour mode empties
the four slots it populated and leaves no resource held. -/
theorem handle_deinit_releases_all_witness :
    ∃ s s', display_time 4 2 true ⟨⟨13, 5⟩, 4 ||| 2⟩ State.initial = some s ∧
      s.live = 4 ∧ handle_deinit s = some s' ∧
      (∀ i, s'.image_slot_state i = EMPTY_SLOT) ∧ s'.live = 0 := by
  obtain ⟨s', hr, hempty, -, -, -, hinv⟩ :=
    handle_deinit_releases_all
      ((display_time 4 2 true ⟨⟨13, 5⟩, 4 ||| 2⟩ State.initial).get (by decide))
  exact ⟨_, s', by simp, by decide, hr, hempty, (hinv (by decide)).1⟩

/-! ## The loads issued by `display_value` -/

/-- A load on an empty slot of the array, with a digit of the table, passes
the three guards. -/
theorem load_takes_effect_of_empty (n g : Int) (i : Fin TOTAL_IMAGE_SLOTS)
    (d : Fin NUMBER_OF_IMAGES) (hn : n = (i.val : Int)) (hg : g = (d.val : Int))
    (s : State) (he : s.image_slot_state i = EMPTY_SLOT) : load_takes_effect n g s := by
  subst hn hg
  have hi : i.val < 4 := i.isLt
  have hd : d.val < 10 := d.isLt
  refine ⟨⟨by omega, by show ((i.val : Nat) : Int) < 4; omega⟩, ⟨by omega, by omega⟩, ?_⟩
  intro j hj
  have : j = i := Fin.ext (by omega)
  rw [this]
  exact he

/-- C15: for every prior state, every value (so every 16-bit unsigned value),
every row in `{0,1}` and every style flag, `display_value` runs as follows:
the unload of the left slot returns; the load that follows passes the three
guards (slot number in `[0,3]`, digit in `[0,9]`, slot empty at that moment);
the unload of the right slot returns; in the two-digit case the load that
follows passes the three guards as well, and in the single-digit case no
further load is issued.  So every load issued takes effect: the loads so far
grow by exactly the digits of the row. -/
theorem display_value_loads_take_effect (v r : Nat) (hr : r < 2) (isAm : Bool)
    (s : State) :
    ∃ s1 s3 s',
      unload_digit_image_from_slot ((r * 2 : Nat) : Int) s = some s1 ∧
      load_takes_effect ((r * 2 : Nat) : Int)
        (((if v % 100 < 10 ∧ r = 0 then v % 100 % 10 else v % 100 / 10 : Nat)) : Int) s1 ∧
      unload_digit_image_from_slot ((r * 2 + 1 : Nat) : Int)
        (load_digit_image_into_slot ((r * 2 : Nat) : Int)
          (((if v % 100 < 10 ∧ r = 0 then v % 100 % 10 else v % 100 / 10 : Nat)) : Int)
          isAm s1) = some s3 ∧
      display_value v r isAm s = some s' ∧
      (¬ (v % 100 < 10 ∧ r = 0) →
        load_takes_effect ((r * 2 + 1 : Nat) : Int) ((v % 100 % 10 : Nat) : Int) s3 ∧
        s' = load_digit_image_into_slot ((r * 2 + 1 : Nat) : Int)
          ((v % 100 % 10 : Nat) : Int) isAm s3 ∧
        s'.acquired =
          IMAGE_RESOURCE_IDS (ones_digit v) :: IMAGE_RESOURCE_IDS (tens_digit v) :: s.acquired) ∧
      (v % 100 < 10 ∧ r = 0 →
        unload_digit_image_from_slot ((r * 2 + 1 : Nat) : Int) s3 = some s' ∧
        s'.acquired = IMAGE_RESOURCE_IDS (ones_digit v) :: s.acquired) := by
  have hLR : (⟨r * 2, by show r * 2 < 4; omega⟩ : Fin TOTAL_IMAGE_SLOTS) ≠
      ⟨r * 2 + 1, by show r * 2 + 1 < 4; omega⟩ := by
    intro h
    have := congrArg Fin.val h
    simp at this
  obtain ⟨s1, u1, a1, -, q1, -⟩ :=
    unload_counts ((r * 2 : Nat) : Int) ⟨r * 2, by show r * 2 < 4; omega⟩ rfl s
  have e1 : s1.image_slot_state ⟨r * 2, by show r * 2 < 4; omega⟩ = EMPTY_SLOT := by
    rw [a1, Function.update_same]
  have hdl : (if v % 100 < 10 ∧ r = 0 then v % 100 % 10 else v % 100 / 10) < 10 := by
    split_ifs <;> omega
  have t1 := load_takes_effect_of_empty ((r * 2 : Nat) : Int)
    (((if v % 100 < 10 ∧ r = 0 then v % 100 % 10 else v % 100 / 10 : Nat)) : Int)
    ⟨r * 2, by show r * 2 < 4; omega⟩ ⟨_, hdl⟩ rfl rfl s1 e1
  have l2 := load_of_eq ((r * 2 : Nat) : Int)
    (((if v % 100 < 10 ∧ r = 0 then v % 100 % 10 else v % 100 / 10 : Nat)) : Int)
    ⟨r * 2, by show r * 2 < 4; omega⟩ ⟨_, hdl⟩ rfl rfl isAm s1
  rw [if_neg (not_not.mpr e1)] at l2
  obtain ⟨s3, u3, a3, -, q3, -⟩ :=
    unload_counts ((r * 2 + 1 : Nat) : Int) ⟨r * 2 + 1, by show r * 2 + 1 < 4; omega⟩ rfl
      (load_digit_image_into_slot ((r * 2 : Nat) : Int)
        (((if v % 100 < 10 ∧ r = 0 then v % 100 % 10 else v % 100 / 10 : Nat)) : Int) isAm s1)
  have e3 : s3.image_slot_state ⟨r * 2 + 1, by show r * 2 + 1 < 4; omega⟩ = EMPTY_SLOT := by
    rw [a3, Function.update_same]
  have q3s : s3.acquired =
      IMAGE_RESOURCE_IDS ⟨_, hdl⟩ :: s.acquired := by
    rw [q3, l2, ← q1]
  have hbody : display_value v r isAm s =
      if ¬ (v % 100 < 10 ∧ r = 0) then
        some (load_digit_image_into_slot ((r * 2 + 1 : Nat) : Int)
          ((v % 100 % 10 : Nat) : Int) isAm s3)
      else unload_digit_image_from_slot ((r * 2 + 1 : Nat) : Int) s3 := by
    unfold display_value
    simp only []
    rw [u1, Option.some_bind]
    have hif : (if v % 100 < 10 ∧ r = 0 then
          load_digit_image_into_slot ((r * 2 : Nat) : Int) ((v % 100 % 10 : Nat) : Int) isAm s1
        else
          load_digit_image_into_slot ((r * 2 : Nat) : Int) ((v % 100 / 10 : Nat) : Int) isAm s1) =
        load_digit_image_into_slot ((r * 2 : Nat) : Int)
          (((if v % 100 < 10 ∧ r = 0 then v % 100 % 10 else v % 100 / 10 : Nat)) : Int)
          isAm s1 := by
      split_ifs <;> rfl
    rw [hif, u3, Option.some_bind]
  by_cases hc : v % 100 < 10 ∧ r = 0
  · obtain ⟨s4, u4, -, -, q4, -⟩ :=
      unload_counts ((r * 2 + 1 : Nat) : Int) ⟨r * 2 + 1, by show r * 2 + 1 < 4; omega⟩ rfl s3
    refine ⟨s1, s3, s4, u1, t1, u3, ?_, fun hn => absurd hc hn, fun _ => ⟨u4, ?_⟩⟩
    · rw [hbody, if_neg (not_not.mpr hc), u4]
    · rw [q4, q3s]
      simp only [hc, and_self, if_true, ones_digit]
  · have t3 := load_takes_effect_of_empty ((r * 2 + 1 : Nat) : Int)
      ((v % 100 % 10 : Nat) : Int) ⟨r * 2 + 1, by show r * 2 + 1 < 4; omega⟩ (ones_digit v)
      rfl rfl s3 e3
    have l4 := load_of_eq ((r * 2 + 1 : Nat) : Int) ((v % 100 % 10 : Nat) : Int)
      ⟨r * 2 + 1, by show r * 2 + 1 < 4; omega⟩ (ones_digit v) rfl rfl isAm s3
    rw [if_neg (not_not.mpr e3)] at l4
    refine ⟨s1, s3, _, u1, t1, u3, ?_, fun _ => ⟨t3, rfl, ?_⟩, fun hn => absurd hn hc⟩
    · rw [hbody, if_pos hc]
    · rw [l4]
      simp only []
      rw [q3s]
      simp only [hc, if_false, tens_digit]

/-- Witness of C15: the largest 16-bit value on row 1 of a pool that already
shows a time issues two loads, and both take effect (digits 3 then 5). -/
theorem display_value_loads_take_effect_witness :
    ∃ s s', display_time 4 2 true ⟨⟨13, 5⟩, 4 ||| 2⟩ State.initial = some s ∧
      display_value 65535 1 true s = some s' ∧
      s'.acquired = ResourceId.RESOURCE_ID_IMAGE_NUM_5 ::
        ResourceId.RESOURCE_ID_IMAGE_NUM_3 :: s.acquired := by
  obtain ⟨s1, s3, s', -, -, -, hr, h2, -⟩ :=
    display_value_loads_take_effect 65535 1 (by decide) true
      ((display_time 4 2 true ⟨⟨13, 5⟩, 4 ||| 2⟩ State.initial).get (by decide))
  exact ⟨_, s', by simp, hr, (h2 (by decide)).2.2⟩

/-- C16: for every value `v` (so every 16-bit unsigned value), row and style
flag, and every prior state, `display_value v` does exactly what
`display_value (v % 100)` does; on row 0 the single-digit test reads the
normalised value: when `v % 100 < 10` the row ends with the glyph `v % 100`
on the left and an empty right slot, and otherwise with the two digits of
`v % 100`. -/
theorem display_value_normalises (v r : Nat) (isAm : Bool) (s : State) :
    display_value v r isAm s = display_value (v % 100) r isAm s ∧
    (v % 100 < 10 →
      ∃ s', display_value v 0 isAm s = some s' ∧
        s'.image_slot_state 0 = ((v % 100 : Nat) : Int) ∧
        s'.image_slot_state 1 = EMPTY_SLOT) ∧
    (10 ≤ v % 100 →
      ∃ s', display_value v 0 isAm s = some s' ∧
        s'.image_slot_state 0 = ((v % 100 / 10 : Nat) : Int) ∧
        s'.image_slot_state 1 = ((v % 100 % 10 : Nat) : Int)) := by
  refine ⟨?_, ?_, ?_⟩
  · unfold display_value
    simp only [Nat.mod_mod]
  · intro h
    obtain ⟨s', hr, -, -, hsh, -⟩ := hour_row_display v isAm s
    unfold hour_row_shows at hsh
    rw [if_pos h] at hsh
    refine ⟨s', hr, ?_, hsh.2.2⟩
    rw [hsh.1]
    simp only [ones_digit, Nat.mod_eq_of_lt h]
  · intro h
    obtain ⟨s', hr, -, -, hsh, -⟩ := hour_row_display v isAm s
    unfold hour_row_shows at hsh
    rw [if_neg (by omega)] at hsh
    refine ⟨s', hr, ?_, ?_⟩
    · rw [hsh.1]; rfl
    · rw [hsh.2.2.1]; rfl

/-- Witness of C16 at the claim's example: `105` on row 0 shows the single
glyph 5 and an empty right slot, as `5` does. -/
theorem display_value_normalises_witness :
    display_value 105 0 true State.initial = display_value 5 0 true State.initial ∧
    ∃ s', display_value 105 0 true State.initial = some s' ∧
      s'.image_slot_state 0 = 5 ∧ s'.image_slot_state 1 = EMPTY_SLOT :=
  ⟨(display_value_normalises 105 0 true State.initial).1,
   (display_value_normalises 105 0 true State.initial).2.1 (by decide)⟩

/-- C17: for every value, style flag and pair of prior states `s` and `t`:
`display_value` on row 0 leaves slots 2 and 3 (slot state and container) as
they were, and on row 1 leaves slots 0 and 1 as they were; and the row it
addresses ends the same from `s` and from `t`: the same slot states, and the
same container in every slot that ends occupied. -/
theorem display_value_row_isolation (v : Nat) (isAm : Bool) (s t : State) :
    (∃ s' t', display_value v 0 isAm s = some s' ∧ display_value v 0 isAm t = some t' ∧
      (s'.image_slot_state 2 = s.image_slot_state 2 ∧
        s'.image_containers 2 = s.image_containers 2 ∧
        s'.image_slot_state 3 = s.image_slot_state 3 ∧
        s'.image_containers 3 = s.image_containers 3) ∧
      s'.image_slot_state 0 = t'.image_slot_state 0 ∧
      s'.image_slot_state 1 = t'.image_slot_state 1 ∧
      s'.image_containers 0 = t'.image_containers 0 ∧
      (s'.image_slot_state 1 ≠ EMPTY_SLOT →
        s'.image_containers 1 = t'.image_containers 1)) ∧
    (∃ s' t', display_value v 1 isAm s = some s' ∧ display_value v 1 isAm t = some t' ∧
      (s'.image_slot_state 0 = s.image_slot_state 0 ∧
        s'.image_containers 0 = s.image_containers 0 ∧
        s'.image_slot_state 1 = s.image_slot_state 1 ∧
        s'.image_containers 1 = s.image_containers 1) ∧
      s'.image_slot_state 2 = t'.image_slot_state 2 ∧
      s'.image_slot_state 3 = t'.image_slot_state 3 ∧
      s'.image_containers 2 = t'.image_containers 2 ∧
      s'.image_containers 3 = t'.image_containers 3) := by
  constructor
  · obtain ⟨s', hrs, -, hf, hss, -⟩ := hour_row_display v isAm s
    obtain ⟨t', hrt, -, -, hst, -⟩ := hour_row_display v isAm t
    refine ⟨s', t', hrs, hrt, hf, ?_⟩
    unfold hour_row_shows at hss hst
    by_cases h : v % 100 < 10
    · rw [if_pos h] at hss hst
      refine ⟨by rw [hss.1, hst.1], by rw [hss.2.2, hst.2.2], by rw [hss.2.1, hst.2.1], ?_⟩
      intro ho
      exact absurd hss.2.2 ho
    · rw [if_neg h] at hss hst
      exact ⟨by rw [hss.1, hst.1], by rw [hss.2.2.1, hst.2.2.1], by rw [hss.2.1, hst.2.1],
        fun _ => by rw [hss.2.2.2, hst.2.2.2]⟩
  · obtain ⟨s', hrs, -, hf, hss, -⟩ := minute_row_display v isAm s
    obtain ⟨t', hrt, -, -, hst, -⟩ := minute_row_display v isAm t
    exact ⟨s', t', hrs, hrt, hf, by rw [hss.1, hst.1], by rw [hss.2.2.1, hst.2.2.1],
      by rw [hss.2.1, hst.2.1], by rw [hss.2.2.2, hst.2.2.2]⟩

/-- An instance of C17: `display_value 7 0` on the pool that shows 13:05 keeps
the minute row `0 5`, and ends with the same row 0 as on the all-empty
pool. -/
theorem display_value_row_isolation_witness :
    ∃ s s' t', display_time 4 2 true ⟨⟨13, 5⟩, 4 ||| 2⟩ State.initial = some s ∧
      display_value 7 0 false s = some s' ∧
      display_value 7 0 false State.initial = some t' ∧
      s'.image_slot_state 2 = 0 ∧ s'.image_slot_state 3 = 5 ∧
      s'.image_slot_state 0 = t'.image_slot_state 0 ∧
      s'.image_slot_state 1 = t'.image_slot_state 1 := by
  obtain ⟨⟨s', t', hrs, hrt, hf, h0, h1, -, -⟩, -⟩ :=
    display_value_row_isolation 7 false
      ((display_time 4 2 true ⟨⟨13, 5⟩, 4 ||| 2⟩ State.initial).get (by decide)) State.initial
  exact ⟨_, s', t', by simp, hrs, hrt, hf.1.trans (by decide), hf.2.2.1.trans (by decide),
    h0, h1⟩

/-- C18: for every prior state, time and clock mode, after `display_time`
with a non-zero mask every occupied slot is composited with the mode of the
style of the current hour (`tm_hour < 11`), the style whose background the
same pass has set.  The two SDK flags are non-zero. -/
theorem display_time_style_consistent (HOUR_UNIT MINUTE_UNIT : Nat) (mode : Bool)
    (e : PebbleTickEvent) (s : State) (hH : HOUR_UNIT ≠ 0) (hM : MINUTE_UNIT ≠ 0)
    (hmask : e.units_changed ≠ 0) :
    ∃ s', display_time HOUR_UNIT MINUTE_UNIT mode e s = some s' ∧
      (∀ i, s'.image_slot_state i ≠ EMPTY_SLOT →
        (s'.image_containers i).compositing_mode =
          compositing_mode_of (decide (e.tick_time.tm_hour < 11))) ∧
      s'.background_color =
        (if e.tick_time.tm_hour < 11 then GColor.GColorWhite else GColor.GColorBlack) := by
  obtain ⟨s', hr, hb, hsh, -, msh, -, -⟩ :=
    display_time_spec HOUR_UNIT MINUTE_UNIT mode e s
  refine ⟨s', hr, ?_, hb⟩
  intro i ho
  by_cases hi : i.val < 2
  · exact hour_row_shows_mode _ _ s' (hsh ⟨hmask, hH⟩) i hi ho
  · exact minute_row_shows_mode _ _ s' (msh ⟨hmask, hM⟩) i (by omega)

/-- Witness of C18 with the SDK's flags: the pool shows 10:59 in the morning
style; after the tick of 11:00 whose mask holds the minute flag alone, all
four slots are composited with `GCompOpAssign` on a black background. -/
theorem display_time_style_consistent_witness :
    ∃ s s', display_time 4 2 true ⟨⟨10, 59⟩, 4 ||| 2⟩ State.initial = some s ∧
      (s.image_containers 0).compositing_mode = GCompOp.GCompOpAssignInverted ∧
      display_time 4 2 true ⟨⟨11, 0⟩, 2⟩ s = some s' ∧
      (∀ i, s'.image_slot_state i ≠ EMPTY_SLOT →
        (s'.image_containers i).compositing_mode = GCompOp.GCompOpAssign) ∧
      s'.background_color = GColor.GColorBlack := by
  obtain ⟨s', hr, hmode, hb⟩ :=
    display_time_style_consistent 4 2 true ⟨⟨11, 0⟩, 2⟩
      ((display_time 4 2 true ⟨⟨10, 59⟩, 4 ||| 2⟩ State.initial).get (by decide))
      (by decide) (by decide) (by decide)
  exact ⟨_, s', by simp, by decide, hr, hmode, hb⟩

end BigTimePlus
